import Mathlib

/-!
RISC-V APLIC driver (direct and MSI back-ends): embedding and properties.

Shallow embedding of `core/drivers/aplic_priv.c`, `core/drivers/aplic_direct.c`,
`core/drivers/aplic_msi.c` and `core/include/drivers/aplic_priv.h`.

Conventions.
* `vaddr_t`, `paddr_t` and `size_t` are 64-bit (RV64), `uint32_t` is 32-bit; machine
  integers are naturals with an explicit reduction where the C code converts or wraps.
* Every externally visible action (MMIO access, call into the kernel, diagnostic) is
  appended to a chronological list of `Event`s.
* `panic()` ends the run; the events performed before it are kept.
-/

namespace Aplic

/-! ## Constants of `aplic_priv.h` -/

def APLIC_MAX_SOURCE : Nat := 1024
def APLIC_DOMAINCFG : Nat := 0x0000
def APLIC_DOMAINCFG_IE : Nat := 1 <<< 8
def APLIC_DOMAINCFG_DM : Nat := 1 <<< 2
def APLIC_DOMAINCFG_BE : Nat := 1 <<< 0
def APLIC_SOURCECFG_BASE : Nat := 0x0004
def APLIC_SOURCECFG_SM_MASK : Nat := 0x00000007
def APLIC_SOURCECFG_SM_INACTIVE : Nat := 0x0
def APLIC_SOURCECFG_SM_DETACHED : Nat := 0x1
def APLIC_SOURCECFG_SM_EDGE_RISE : Nat := 0x4
def APLIC_SOURCECFG_SM_EDGE_FALL : Nat := 0x5
def APLIC_SOURCECFG_SM_LEVEL_HIGH : Nat := 0x6
def APLIC_SOURCECFG_SM_LEVEL_LOW : Nat := 0x7
def APLIC_SETIPNUM : Nat := 0x1CDC
def APLIC_CLRIPNUM : Nat := 0x1DDC
def APLIC_SETIENUM : Nat := 0x1EDC
def APLIC_CLRIENUM : Nat := 0x1FDC
def APLIC_TARGET_BASE : Nat := 0x3004
def APLIC_TARGET_HART_IDX_SHIFT : Nat := 18
def APLIC_TARGET_HART_IDX_MASK : Nat := 0x3FFF
def APLIC_TARGET_GUEST_IDX_SHIFT : Nat := 12
def APLIC_TARGET_GUEST_IDX_MASK : Nat := 0x3F
def APLIC_TARGET_EIID_SHIFT : Nat := 0
def APLIC_TARGET_EIID_MASK : Nat := 0x7FF
def APLIC_TARGET_IPRIO_SHIFT : Nat := 0
def APLIC_TARGET_IPRIO_MASK : Nat := 0xFF

/-! ## Constants of `aplic_direct.c` and `aplic_msi.c` -/

def APLIC_MAX_IDC : Nat := 1 <<< 14
def APLIC_IDC_BASE : Nat := 0x4000
def APLIC_IDC_SIZE : Nat := 32
def APLIC_IDC_IDELIVERY : Nat := 0x00
def APLIC_IDC_IFORCE : Nat := 0x04
def APLIC_IDC_ITHRESHOLD : Nat := 0x08
def APLIC_IDC_TOPI : Nat := 0x18
def APLIC_IDC_TOPI_ID_SHIFT : Nat := 16
def APLIC_IDC_TOPI_ID_MASK : Nat := 0x3FF
def APLIC_IDC_CLAIMI : Nat := 0x1C
def APLIC_DEFAULT_PRIORITY : Nat := 1
def APLIC_DISABLE_IDELIVERY : Nat := 0
def APLIC_ENABLE_IDELIVERY : Nat := 1
def APLIC_DISABLE_ITHRESHOLD : Nat := 1
def APLIC_ENABLE_ITHRESHOLD : Nat := 0
def APLIC_DEFAULT_EIID : Nat := 2

/-! ## Machine integers -/

/-- Conversion to `uint32_t`. -/
def u32 (n : Nat) : Nat := n % 2 ^ 32

/-- Conversion to a 64-bit `vaddr_t` / `size_t`. -/
def u64 (n : Nat) : Nat := n % 2 ^ 64

/-- The `uint32_t` expression `a - b` (wraps modulo 2^32). -/
def u32_sub (a b : Nat) : Nat := (u32 a + 2 ^ 32 - u32 b) % 2 ^ 32

/-- The `sizeof(uint32_t)` of the C code. -/
def sizeof_uint32_t : Nat := 4

/-! ## Events, outcomes and the execution monad -/

/-- Externally visible actions of the driver, in program order. -/
inductive Event where
  /-- The call `io_write32(addr, val)`. -/
  | write32 (addr val : Nat)
  /-- The call `io_read32(addr)` together with the word the device returned. -/
  | read32 (addr val : Nat)
  /-- The call `interrupt_call_handlers(&aplic->chip, it)`. -/
  | interrupt_call_handlers (it : Nat)
  /-- The call `interrupt_main_init(&aplic_data.chip)`. -/
  | interrupt_main_init
  /-- The call `free(aplic)` on the descriptor. -/
  | free_aplic
  /-- The diagnostic `DMSG("ignoring interrupt %u", id)`. -/
  | dmsg_ignoring (id : Nat)
  /-- The diagnostic `EMSG("Unable to get DTB, APLIC init failed")`. -/
  | emsg_no_dtb
  /-- The diagnostic `EMSG("Parse IMSIC node failed")`. -/
  | emsg_parse_failed
  deriving DecidableEq, Repr

/-- How a run ends: it returns a value, or it reaches `panic()`. Both keep the events
performed so far. -/
inductive Outcome (α : Type) where
  | ret (a : α) (tr : List Event)
  | panic (tr : List Event)
  deriving DecidableEq, Repr

/-- The events of an outcome. -/
def Outcome.trace {α : Type} : Outcome α → List Event
  | .ret _ tr => tr
  | .panic tr => tr

/-- Whether the run reached `panic()`. -/
def Outcome.panicked {α : Type} : Outcome α → Bool
  | .ret _ _ => false
  | .panic _ => true

/-- A computation: from the events so far to an outcome. -/
def Exec (α : Type) : Type := List Event → Outcome α

/-- Return without any event. -/
def Exec.pure {α : Type} (a : α) : Exec α := fun tr => Outcome.ret a tr

/-- Sequencing; a panic in the first part skips the second. -/
def Exec.bind {α β : Type} (m : Exec α) (f : α → Exec β) : Exec β := fun tr =>
  match m tr with
  | Outcome.ret a tr1 => f a tr1
  | Outcome.panic tr1 => Outcome.panic tr1

instance : Monad Exec where
  pure := Exec.pure
  bind := Exec.bind

/-- Record one event. -/
def emit (e : Event) : Exec Unit := fun tr => Outcome.ret () (tr ++ [e])

/-- The kernel's `panic()`. -/
def panic {α : Type} : Exec α := fun tr => Outcome.panic tr

/-- The MMIO writes of a trace, in order, as (address, value) pairs. -/
def mmio_writes : List Event → List (Nat × Nat)
  | [] => []
  | Event.write32 a v :: tr => (a, v) :: mmio_writes tr
  | _ :: tr => mmio_writes tr

/-- The addresses of the MMIO reads of a trace, in order. -/
def mmio_reads : List Event → List Nat
  | [] => []
  | Event.read32 a _ :: tr => a :: mmio_reads tr
  | _ :: tr => mmio_reads tr

/-- The values written to one address, in order. -/
def writes_to (addr : Nat) (tr : List Event) : List Nat :=
  ((mmio_writes tr).filter (fun w => w.1 = addr)).map (fun w => w.2)

/-- The sources `interrupt_call_handlers` was invoked with, in order. -/
def handler_calls : List Event → List Nat
  | [] => []
  | Event.interrupt_call_handlers it :: tr => it :: handler_calls tr
  | _ :: tr => handler_calls tr

/-- Whether the trace has no MMIO access at all. -/
def no_mmio (tr : List Event) : Bool := (mmio_writes tr).isEmpty && (mmio_reads tr).isEmpty

/-- A register file: a read of an address returns the word last written to it, or the
reset value when it was never written. -/
def regfile (reset : Nat → Nat) (tr : List Event) (a : Nat) : Nat :=
  match (writes_to a tr).getLast? with
  | some v => v
  | none => reset a

/-! ## Results, descriptor, platform -/

/-- The `TEE_Result` codes the driver uses; `TEE_SUCCESS` is the only zero code. -/
inductive TEE_Result where
  | TEE_SUCCESS
  | TEE_ERROR_GENERIC
  | TEE_ERROR_BAD_PARAMETERS
  | TEE_ERROR_ITEM_NOT_FOUND
  | TEE_ERROR_NOT_SUPPORTED
  /-- Any other non-zero code (only `fdt_parse_imsic_node` can produce one). -/
  | TEE_ERROR_OTHER (code : Nat)
  deriving DecidableEq, Repr

/-- The C test `if (res)`. -/
def TEE_Result.failed : TEE_Result → Bool
  | .TEE_SUCCESS => false
  | _ => true

/-- Which operation table `chip.ops` points to. -/
inductive OpsRef where
  | direct_aplic_ops
  | msi_aplic_ops
  deriving DecidableEq, Repr

/-- The part of `struct itr_chip` the driver touches: the `ops` pointer (`none` is NULL). -/
structure itr_chip where
  ops : Option OpsRef
  deriving DecidableEq, Repr

/-- The `struct aplic_data` of `aplic_priv.h`. -/
structure aplic_data where
  aplic_base : Nat
  size : Nat
  targets_mmode : Bool
  num_idc : Nat
  num_source : Nat
  chip : itr_chip
  deriving DecidableEq, Repr

/-! ## Device tree, as the libfdt primitives report it -/

/-- A property as `fdt_getprop` returns it: `len` is the byte length and `cell i` is
`fdt32_to_cpu(val[i])`, the i-th big-endian 32-bit word counted from the start of the
value. Words at index `len / 4` and above lie outside the property: they are whatever
follows it in the blob. A property that is absent is `none` (NULL, negative length). -/
structure FdtProp where
  len : Nat
  cell : Nat → Nat

/-- A node compatible with "riscv,aplic", as seen through libfdt. -/
structure FdtNode where
  /-- The node offset. -/
  offset : Nat
  /-- The return code of `fdt_get_reg_props_by_index(fdt, node, 0, ..)`. -/
  reg_rc : Int
  /-- The `reg_addr` it stores. -/
  reg_addr : Nat
  /-- The `reg_size` it stores. -/
  reg_size : Nat
  /-- The property "riscv,num-sources". -/
  num_sources : Option FdtProp
  /-- The property "interrupts-extended". -/
  interrupts_extended : Option FdtProp
  /-- The property "msi-parent". -/
  msi_parent : Option FdtProp

/-- A device tree blob. `aplic_nodes` are the nodes that
`fdt_node_offset_by_compatible(fdt, .., "riscv,aplic")` enumerates, in device-tree order;
past the last one it returns `-FDT_ERR_NOTFOUND`. -/
structure Fdt where
  aplic_nodes : List FdtNode
  /-- The function `fdt_node_offset_by_phandle(fdt, phandle)`. -/
  node_offset_by_phandle : Nat → Int

/-- Everything the driver takes from outside `src/`: the device behind the MMIO window,
kernel services, and constants of headers that are not part of the sources at hand. -/
structure Platform where
  /-- The device: the word `io_read32(addr)` returns after the given history. -/
  bus : List Event → Nat → Nat
  /-- The value of `get_core_pos()` on the calling hart. -/
  get_core_pos : Nat
  /-- The constants of `dt-bindings/interrupt-controller/irq.h`. -/
  IRQ_TYPE_NONE : Nat
  IRQ_TYPE_EDGE_RISING : Nat
  IRQ_TYPE_EDGE_FALLING : Nat
  IRQ_TYPE_LEVEL_HIGH : Nat
  IRQ_TYPE_LEVEL_LOW : Nat
  /-- The constant `IRQ_M_EXT` of `encoding.h`. -/
  IRQ_M_EXT : Nat
  /-- The constant `FDT_ERR_NOTFOUND` of `libfdt.h`. -/
  FDT_ERR_NOTFOUND : Nat
  /-- The value of `IS_ENABLED(CFG_DT)`. -/
  CFG_DT : Bool
  /-- Whether `assert()` is compiled out. -/
  NDEBUG : Bool
  /-- The value of `cpu_mmu_enabled()`. -/
  cpu_mmu_enabled : Bool
  /-- The function `core_mmu_get_va(pa, MEM_AREA_IO_SEC, size)`; 0 is failure. -/
  core_mmu_get_va : Nat → Nat → Nat
  /-- The constants of `platform_config.h`. -/
  APLIC_SIZE : Nat
  APLIC_NUM_SOURCE : Nat
  APLIC_NUM_IDC : Nat
  /-- The value of `get_dt()`; `none` is NULL. -/
  get_dt : Option Fdt
  /-- The function `fdt_parse_imsic_node(fdt, noff, &imsic)`: its result and the
  `targets_mmode` it leaves in `imsic`. -/
  fdt_parse_imsic_node : Int → TEE_Result × Bool

/-- The case labels of the `switch` in `aplic_set_source_mode` are pairwise different, as
C requires of a `switch`. -/
def Platform.irq_types_distinct (P : Platform) : Prop :=
  [P.IRQ_TYPE_NONE, P.IRQ_TYPE_EDGE_RISING, P.IRQ_TYPE_EDGE_FALLING,
   P.IRQ_TYPE_LEVEL_HIGH, P.IRQ_TYPE_LEVEL_LOW].Nodup

instance (P : Platform) : Decidable P.irq_types_distinct := by
  unfold Platform.irq_types_distinct; infer_instance

/-- The type value is one of the five of the trigger-type enumeration. -/
def Platform.is_trigger_type (P : Platform) (type : Nat) : Prop :=
  type ∈ [P.IRQ_TYPE_NONE, P.IRQ_TYPE_EDGE_RISING, P.IRQ_TYPE_EDGE_FALLING,
          P.IRQ_TYPE_LEVEL_HIGH, P.IRQ_TYPE_LEVEL_LOW]

instance (P : Platform) (type : Nat) : Decidable (P.is_trigger_type type) := by
  unfold Platform.is_trigger_type; infer_instance

/-! ## MMIO primitives (`io.h`) -/

/-- The call `io_write32(addr, val)`. -/
def io_write32 (addr val : Nat) : Exec Unit := emit (Event.write32 (u64 addr) (u32 val))

/-- The call `io_read32(addr)`: the device answers from the history so far. -/
def io_read32 (P : Platform) (addr : Nat) : Exec Nat := fun tr =>
  let v := u32 (P.bus tr (u64 addr))
  Outcome.ret v (tr ++ [Event.read32 (u64 addr) v])

/-! ## Common register layer (`aplic_priv.h`, `aplic_priv.c`) -/

def aplic_enable_interrupt (aplic : aplic_data) (source : Nat) : Exec Unit :=
  io_write32 (aplic.aplic_base + APLIC_SETIENUM) source

def aplic_disable_interrupt (aplic : aplic_data) (source : Nat) : Exec Unit :=
  io_write32 (aplic.aplic_base + APLIC_CLRIENUM) source

def aplic_set_pending (aplic : aplic_data) (source : Nat) : Exec Unit :=
  io_write32 (aplic.aplic_base + APLIC_SETIPNUM) source

def aplic_clear_pending (aplic : aplic_data) (source : Nat) : Exec Unit :=
  io_write32 (aplic.aplic_base + APLIC_CLRIPNUM) source

/-- The `switch (type)` of `aplic_set_source_mode`: the source-mode code, or `none` for
the `default:` label. -/
def source_mode_of_type (P : Platform) (type : Nat) : Option Nat :=
  if type = P.IRQ_TYPE_NONE then some APLIC_SOURCECFG_SM_INACTIVE
  else if type = P.IRQ_TYPE_EDGE_RISING then some APLIC_SOURCECFG_SM_EDGE_RISE
  else if type = P.IRQ_TYPE_EDGE_FALLING then some APLIC_SOURCECFG_SM_EDGE_FALL
  else if type = P.IRQ_TYPE_LEVEL_HIGH then some APLIC_SOURCECFG_SM_LEVEL_HIGH
  else if type = P.IRQ_TYPE_LEVEL_LOW then some APLIC_SOURCECFG_SM_LEVEL_LOW
  else none

/-- The address of `sourcecfg[source]` as the C code computes it. -/
def sourcecfg_addr (aplic : aplic_data) (source : Nat) : Nat :=
  aplic.aplic_base + APLIC_SOURCECFG_BASE + u32_sub source 1 * sizeof_uint32_t

def aplic_set_source_mode (P : Platform) (aplic : aplic_data) (source type : Nat) :
    Exec TEE_Result :=
  match source_mode_of_type P type with
  | none => pure TEE_Result.TEE_ERROR_BAD_PARAMETERS
  | some val => do
    io_write32 (sourcecfg_addr aplic source) val
    pure TEE_Result.TEE_SUCCESS

/-- The scan `for (i = 0; i < len; i += 2)` of `fdt_parse_aplic_node`, entered at index
`i` with `fuel` iterations allowed (`len` are enough). Returns whether a cell equal to
`IRQ_M_EXT` was met (the loop then breaks) and the cell indices read, in order. -/
def mmode_scan (P : Platform) (val : FdtProp) (len : Nat) : Nat → Nat → Bool × List Nat
  | 0, _ => (false, [])
  | fuel + 1, i =>
    if i < len then
      if val.cell (i + 1) = P.IRQ_M_EXT then (true, [i + 1])
      else
        let r := mmode_scan P val len fuel (i + 2)
        (r.1, (i + 1) :: r.2)
    else (false, [])

/-- The `else` branch of `fdt_parse_aplic_node`: the "msi-parent" path. -/
def parse_msi_parent (P : Platform) (fdt : Fdt) (node : FdtNode) (aplic : aplic_data) :
    TEE_Result × aplic_data :=
  match node.msi_parent with
  | none => (TEE_Result.TEE_SUCCESS, aplic)
  | some val =>
    if val.len ≥ 4 then
      let noff := fdt.node_offset_by_phandle (val.cell 0)
      if noff < 0 then (TEE_Result.TEE_ERROR_ITEM_NOT_FOUND, aplic)
      else
        let r := P.fdt_parse_imsic_node noff
        if r.1.failed then (r.1, aplic)
        else (TEE_Result.TEE_SUCCESS, { aplic with targets_mmode := r.2 })
    else (TEE_Result.TEE_SUCCESS, aplic)

/-- The function `fdt_parse_aplic_node(fdt, nodeoff, aplic)` with non-NULL `fdt` and
`aplic`. `node` is what libfdt finds at `nodeoff`; `none` when the offset names no node,
in which case `fdt_get_reg_props_by_index` fails. Returns the result and the descriptor
as the call leaves it. -/
def fdt_parse_aplic_node (P : Platform) (fdt : Fdt) (nodeoff : Int) (node : Option FdtNode)
    (aplic : aplic_data) : TEE_Result × aplic_data :=
  if nodeoff < 0 then (TEE_Result.TEE_ERROR_GENERIC, aplic)
  else
    -- memset(aplic, 0, sizeof(*aplic))
    let aplic : aplic_data :=
      { aplic_base := 0, size := 0, targets_mmode := false, num_idc := 0, num_source := 0,
        chip := { ops := none } }
    match node with
    | none => (TEE_Result.TEE_ERROR_ITEM_NOT_FOUND, aplic)
    | some node =>
      if node.reg_rc < 0 ∨ node.reg_addr = 0 ∨ node.reg_size = 0 then
        (TEE_Result.TEE_ERROR_ITEM_NOT_FOUND, aplic)
      else
        let aplic := { aplic with aplic_base := P.core_mmu_get_va node.reg_addr node.reg_size }
        if aplic.aplic_base = 0 then (TEE_Result.TEE_ERROR_GENERIC, aplic)
        else
          let aplic := { aplic with size := u32 node.reg_size }
          let aplic :=
            match node.num_sources with
            | some val => if val.len > 0 then { aplic with num_source := u32 (val.cell 0) }
                          else aplic
            | none => aplic
          match node.interrupts_extended with
          | some val =>
            if val.len > 4 then
              let len := val.len / 4
              let aplic :=
                if (mmode_scan P val len len 0).1 then { aplic with targets_mmode := true }
                else aplic
              (TEE_Result.TEE_SUCCESS, { aplic with num_idc := u32 (len / 2) })
            else parse_msi_parent P fdt node aplic
          | none => parse_msi_parent P fdt node aplic

/-- The code after the `while` loop of `aplic_init_from_device_tree`. -/
def probe_after_loop (aplic : aplic_data) : Exec (TEE_Result × aplic_data) := do
  if aplic.targets_mmode then emit Event.free_aplic
  pure (TEE_Result.TEE_ERROR_ITEM_NOT_FOUND, aplic)

/-- The loop of `aplic_init_from_device_tree` once `fdt_node_offset_by_compatible` has
run past the last node, so that `node` is `-FDT_ERR_NOTFOUND`. When that differs from
`FDT_ERR_NOTFOUND` it is negative and `fdt_parse_aplic_node` fails at its first test, so
the last branch is never taken. -/
def probe_past_last (P : Platform) (fdt : Fdt) (aplic : aplic_data) :
    Exec (TEE_Result × aplic_data) :=
  if (-(P.FDT_ERR_NOTFOUND : Int)) = (P.FDT_ERR_NOTFOUND : Int) then probe_after_loop aplic
  else
    let r := fdt_parse_aplic_node P fdt (-(P.FDT_ERR_NOTFOUND : Int)) none aplic
    if r.1.failed then do
      emit Event.emsg_parse_failed
      pure r
    else if !r.2.targets_mmode then pure (TEE_Result.TEE_SUCCESS, r.2)
    else probe_after_loop r.2

/-- The `while (node != FDT_ERR_NOTFOUND)` loop of `aplic_init_from_device_tree`, with
`node` at the offset of `n` and `rest` the compatible nodes after it. -/
def probe_loop (P : Platform) (fdt : Fdt) :
    FdtNode → List FdtNode → aplic_data → Exec (TEE_Result × aplic_data)
  | n, [], aplic =>
    if (n.offset : Int) = (P.FDT_ERR_NOTFOUND : Int) then probe_after_loop aplic
    else
      let r := fdt_parse_aplic_node P fdt n.offset (some n) aplic
      if r.1.failed then do
        emit Event.emsg_parse_failed
        pure r
      else if !r.2.targets_mmode then pure (TEE_Result.TEE_SUCCESS, r.2)
      else probe_past_last P fdt r.2
  | n, m :: rest, aplic =>
    if (n.offset : Int) = (P.FDT_ERR_NOTFOUND : Int) then probe_after_loop aplic
    else
      let r := fdt_parse_aplic_node P fdt n.offset (some n) aplic
      if r.1.failed then do
        emit Event.emsg_parse_failed
        pure r
      else if !r.2.targets_mmode then pure (TEE_Result.TEE_SUCCESS, r.2)
      else probe_loop P fdt m rest r.2

def aplic_init_from_device_tree (P : Platform) (aplic : aplic_data) :
    Exec (TEE_Result × aplic_data) :=
  match P.get_dt with
  | none => do
    emit Event.emsg_no_dtb
    pure (TEE_Result.TEE_ERROR_ITEM_NOT_FOUND, aplic)
  | some fdt =>
    match fdt.aplic_nodes with
    | [] => probe_past_last P fdt aplic
    | n :: rest => probe_loop P fdt n rest aplic

/-- The macro `assert(cond)`: a failed assertion ends in `panic()`. -/
def assert (P : Platform) (cond : Bool) : Exec Unit :=
  if P.NDEBUG || cond then pure () else panic

/-- The operation table `struct itr_ops`, with the chip already resolved to its
descriptor (`container_of`). An absent operation (NULL) is `none`. -/
structure itr_ops where
  add : aplic_data → Nat → Nat → Nat → Exec Unit
  enable : aplic_data → Nat → Exec Unit
  disable : aplic_data → Nat → Exec Unit
  mask : aplic_data → Nat → Exec Unit
  unmask : aplic_data → Nat → Exec Unit
  raise_pi : aplic_data → Nat → Exec Unit
  raise_sgi : Option (aplic_data → Nat → Nat → Exec Unit)
  set_affinity : Option (aplic_data → Nat → Nat → Exec Unit)

/-! ## Direct back-end (`aplic_direct.c`) -/

namespace direct

def aplic_get_idc_base (P : Platform) (aplic : aplic_data) : Nat :=
  u64 (aplic.aplic_base + APLIC_IDC_BASE + u64 P.get_core_pos * APLIC_IDC_SIZE)

def aplic_set_target (aplic : aplic_data) (source hart_idx iprio : Nat) : Exec Unit :=
  let val := u32 ((hart_idx &&& APLIC_TARGET_HART_IDX_MASK) <<< APLIC_TARGET_HART_IDX_SHIFT)
  let val := val ||| u32 ((iprio &&& APLIC_TARGET_IPRIO_MASK) <<< APLIC_TARGET_IPRIO_SHIFT)
  let target := aplic.aplic_base + APLIC_TARGET_BASE + u32_sub source 1 * sizeof_uint32_t
  io_write32 target val

def aplic_init_base_addr (P : Platform) (aplic : aplic_data) (aplic_base_pa : Nat) :
    Exec aplic_data := do
  assert P P.cpu_mmu_enabled
  let aplic_base := P.core_mmu_get_va aplic_base_pa P.APLIC_SIZE
  if aplic_base = 0 then panic
  pure { aplic with aplic_base := aplic_base, num_source := u32 P.APLIC_NUM_SOURCE,
                    num_idc := u32 P.APLIC_NUM_IDC }

def aplic_op_add (P : Platform) (aplic : aplic_data) (it type prio : Nat) : Exec Unit := do
  let hartid := u64 P.get_core_pos
  if it = 0 ∨ it > aplic.num_source then panic
  aplic_disable_interrupt aplic (u32 it)
  let res ← aplic_set_source_mode P aplic (u32 it) type
  if res.failed then panic
  aplic_set_target aplic (u32 it) (u32 hartid) prio

def aplic_op_enable (aplic : aplic_data) (it : Nat) : Exec Unit := do
  if it = 0 ∨ it > aplic.num_source then panic
  aplic_enable_interrupt aplic (u32 it)

def aplic_op_disable (aplic : aplic_data) (it : Nat) : Exec Unit := do
  if it = 0 ∨ it > aplic.num_source then panic
  aplic_disable_interrupt aplic (u32 it)

def aplic_op_raise_pi (aplic : aplic_data) (it : Nat) : Exec Unit := do
  if it = 0 ∨ it > aplic.num_source then panic
  aplic_set_pending aplic (u32 it)

def aplic_ops (P : Platform) : itr_ops where
  add := aplic_op_add P
  enable := aplic_op_enable
  disable := aplic_op_disable
  mask := aplic_op_disable
  unmask := aplic_op_enable
  raise_pi := aplic_op_raise_pi
  raise_sgi := none
  set_affinity := none

def aplic_init_per_hart (P : Platform) (aplic : aplic_data) : Exec Unit := do
  let idc_base := aplic_get_idc_base P aplic
  io_write32 (idc_base + APLIC_IDC_IDELIVERY) APLIC_ENABLE_IDELIVERY
  io_write32 (idc_base + APLIC_IDC_ITHRESHOLD) APLIC_ENABLE_ITHRESHOLD

/-- The function `aplic_init(aplic_base_pa)`; `aplic` is the static descriptor on entry,
the result is the descriptor on return. -/
def aplic_init (P : Platform) (aplic : aplic_data) (aplic_base_pa : Nat) :
    Exec aplic_data := do
  let aplic ←
    if P.CFG_DT then do
      let r ← aplic_init_from_device_tree P aplic
      pure r.2
    else aplic_init_base_addr P aplic aplic_base_pa
  let aplic := { aplic with chip := { aplic.chip with ops := some OpsRef.direct_aplic_ops } }
  io_write32 (aplic.aplic_base + APLIC_DOMAINCFG) APLIC_DOMAINCFG_IE
  aplic_init_per_hart P aplic
  emit Event.interrupt_main_init
  pure aplic

def aplic_it_handle (P : Platform) (aplic : aplic_data) : Exec Unit := do
  let id ← io_read32 P (aplic.aplic_base + APLIC_IDC_CLAIMI)
  let id := id >>> APLIC_IDC_TOPI_ID_SHIFT
  if id ≤ aplic.num_source then emit (Event.interrupt_call_handlers id)
  else emit (Event.dmsg_ignoring id)

end direct

/-! ## MSI back-end (`aplic_msi.c`) -/

namespace msi

def aplic_set_target (aplic : aplic_data) (source hart_idx guest_idx eiid : Nat) :
    Exec Unit :=
  let val := u32 ((hart_idx &&& APLIC_TARGET_HART_IDX_MASK) <<< APLIC_TARGET_HART_IDX_SHIFT)
  let val := val |||
    u32 ((guest_idx &&& APLIC_TARGET_GUEST_IDX_MASK) <<< APLIC_TARGET_GUEST_IDX_SHIFT)
  let val := val ||| u32 ((eiid &&& APLIC_TARGET_EIID_MASK) <<< APLIC_TARGET_EIID_SHIFT)
  let target := aplic.aplic_base + APLIC_TARGET_BASE + u32_sub source 1 * sizeof_uint32_t
  io_write32 target val

def aplic_get_source_mode (P : Platform) (aplic : aplic_data) (source : Nat) : Exec Nat := do
  let sm ← io_read32 P (aplic.aplic_base + APLIC_SOURCECFG_BASE +
                        u32_sub source 1 * sizeof_uint32_t)
  pure (sm &&& APLIC_SOURCECFG_SM_MASK)

def aplic_msi_irq_retrigger_level (P : Platform) (aplic : aplic_data) (source : Nat) :
    Exec Unit := do
  let sm ← aplic_get_source_mode P aplic source
  if sm = APLIC_SOURCECFG_SM_LEVEL_HIGH ∨ sm = APLIC_SOURCECFG_SM_LEVEL_LOW then
    io_write32 (aplic.aplic_base + APLIC_SETIPNUM) source

def aplic_init_base_addr (P : Platform) (aplic : aplic_data) (aplic_base_pa : Nat) :
    Exec aplic_data := do
  assert P P.cpu_mmu_enabled
  let aplic_base := P.core_mmu_get_va aplic_base_pa P.APLIC_SIZE
  if aplic_base = 0 then panic
  pure { aplic with aplic_base := aplic_base, num_source := u32 P.APLIC_NUM_SOURCE,
                    num_idc := 0 }

def aplic_op_add (P : Platform) (aplic : aplic_data) (it type _prio : Nat) : Exec Unit := do
  let hartid := u64 P.get_core_pos
  if it = 0 ∨ it > aplic.num_source then panic
  aplic_disable_interrupt aplic (u32 it)
  let res ← aplic_set_source_mode P aplic (u32 it) type
  if res.failed then panic
  aplic_msi_irq_retrigger_level P aplic (u32 it)
  aplic_set_target aplic (u32 it) (u32 hartid) 0 APLIC_DEFAULT_EIID

def aplic_op_enable (aplic : aplic_data) (it : Nat) : Exec Unit := do
  if it = 0 ∨ it > aplic.num_source then panic
  aplic_enable_interrupt aplic (u32 it)

def aplic_op_disable (aplic : aplic_data) (it : Nat) : Exec Unit := do
  if it = 0 ∨ it > aplic.num_source then panic
  aplic_disable_interrupt aplic (u32 it)

def aplic_op_raise_pi (aplic : aplic_data) (it : Nat) : Exec Unit := do
  if it = 0 ∨ it > aplic.num_source then panic
  aplic_set_pending aplic (u32 it)

def aplic_ops (P : Platform) : itr_ops where
  add := aplic_op_add P
  enable := aplic_op_enable
  disable := aplic_op_disable
  mask := aplic_op_disable
  unmask := aplic_op_enable
  raise_pi := aplic_op_raise_pi
  raise_sgi := none
  set_affinity := none

/-- The function `aplic_init(aplic_base_pa)`; `aplic` is the static descriptor on entry,
the result is the descriptor on return. -/
def aplic_init (P : Platform) (aplic : aplic_data) (aplic_base_pa : Nat) :
    Exec aplic_data := do
  let aplic ←
    if P.CFG_DT then do
      let r ← aplic_init_from_device_tree P aplic
      pure r.2
    else aplic_init_base_addr P aplic aplic_base_pa
  let aplic := { aplic with chip := { aplic.chip with ops := some OpsRef.msi_aplic_ops } }
  io_write32 (aplic.aplic_base + APLIC_DOMAINCFG) (APLIC_DOMAINCFG_IE ||| APLIC_DOMAINCFG_DM)
  pure aplic

def aplic_init_per_hart : Exec Unit := pure ()

def aplic_it_handle : Exec Unit := pure ()

end msi

/-- The two APLIC back-ends; a build has exactly one. -/
inductive Backend where
  | direct
  | msi
  deriving DecidableEq, Repr

/-- The operation table of a back-end. -/
def Backend.ops (b : Backend) (P : Platform) : itr_ops :=
  match b with
  | .direct => direct.aplic_ops P
  | .msi => msi.aplic_ops P

/-- The function `aplic_init` of a back-end. -/
def Backend.aplic_init (b : Backend) (P : Platform) (aplic : aplic_data)
    (aplic_base_pa : Nat) : Exec aplic_data :=
  match b with
  | .direct => direct.aplic_init P aplic aplic_base_pa
  | .msi => msi.aplic_init P aplic aplic_base_pa

/-! ## A concrete platform for evaluation -/

/-- A platform in the style of the QEMU `virt` machine: the device is a register file with
all-zero reset values, the calling hart is hart 0, the constants of the missing headers
have their usual values, and device-tree probing is off. -/
def virt : Platform where
  bus := regfile (fun _ => 0)
  get_core_pos := 0
  IRQ_TYPE_NONE := 0
  IRQ_TYPE_EDGE_RISING := 1
  IRQ_TYPE_EDGE_FALLING := 2
  IRQ_TYPE_LEVEL_HIGH := 4
  IRQ_TYPE_LEVEL_LOW := 8
  IRQ_M_EXT := 11
  FDT_ERR_NOTFOUND := 1
  CFG_DT := false
  NDEBUG := false
  cpu_mmu_enabled := true
  core_mmu_get_va := fun pa _ => pa
  APLIC_SIZE := 0x8000
  APLIC_NUM_SOURCE := 32
  APLIC_NUM_IDC := 1
  get_dt := none
  fdt_parse_imsic_node := fun _ => (TEE_Result.TEE_ERROR_NOT_SUPPORTED, false)

/-- A descriptor as `aplic_init` leaves it on `virt`: base 0xd000000, 32 sources. -/
def virt_aplic : aplic_data where
  aplic_base := 0xd000000
  size := 0
  targets_mmode := false
  num_idc := 1
  num_source := 32
  chip := { ops := some OpsRef.direct_aplic_ops }

/-! ## Specification-side tables -/

/-- The source-mode codes the specification assigns to the five trigger types, as
(type value, code) pairs: none 0, edge-rising 4, edge-falling 5, level-high 6,
level-low 7. -/
def spec_trigger_codes (P : Platform) : List (Nat × Nat) :=
  [(P.IRQ_TYPE_NONE, 0), (P.IRQ_TYPE_EDGE_RISING, 4), (P.IRQ_TYPE_EDGE_FALLING, 5),
   (P.IRQ_TYPE_LEVEL_HIGH, 6), (P.IRQ_TYPE_LEVEL_LOW, 7)]

/-! ## Further sample inputs -/

/-- The platform `virt` with a device that answers every read with the word `w`. -/
def virt_reading (w : Nat) : Platform := { virt with bus := fun _ _ => w }

/-- The platform `virt` seen from hart `h`. -/
def virt_hart (h : Nat) : Platform := { virt with get_core_pos := h }

/-- A device tree with one M-mode-targeted APLIC (its "interrupts-extended" names
`IRQ_M_EXT` = 11) followed by one S-mode-targeted APLIC at 0xd000000 with 96 sources. -/
def two_node_fdt : Fdt where
  aplic_nodes :=
    [{ offset := 0x100, reg_rc := 0, reg_addr := 0xc000000, reg_size := 0x8000,
       num_sources := some { len := 4, cell := fun _ => 96 },
       interrupts_extended := some { len := 8, cell := fun i => if i = 1 then 11 else 3 },
       msi_parent := none },
     { offset := 0x200, reg_rc := 0, reg_addr := 0xd000000, reg_size := 0x8000,
       num_sources := some { len := 4, cell := fun _ => 96 },
       interrupts_extended := some { len := 8, cell := fun i => if i = 1 then 9 else 3 },
       msi_parent := none }]
  node_offset_by_phandle := fun _ => -1

/-- The platform `virt` with device-tree probing on and `two_node_fdt` as the DTB. -/
def virt_dt : Platform := { virt with CFG_DT := true, get_dt := some two_node_fdt }

/-- The all-zero descriptor of `.bss`. -/
def zero_aplic : aplic_data where
  aplic_base := 0
  size := 0
  targets_mmode := false
  num_idc := 0
  num_source := 0
  chip := { ops := none }

/-- An APLIC node whose "interrupts-extended" property has 12 bytes, that is three cells
(an odd number), none of them `IRQ_M_EXT`. -/
def odd_cells_node : FdtNode where
  offset := 0x100
  reg_rc := 0
  reg_addr := 0xd000000
  reg_size := 0x8000
  num_sources := some { len := 4, cell := fun _ => 96 }
  interrupts_extended := some { len := 12, cell := fun _ => 9 }
  msi_parent := none

/-- An APLIC node with two complete pairs in "interrupts-extended", the second one naming
`IRQ_M_EXT` = 11. -/
def two_pair_node : FdtNode where
  offset := 0x100
  reg_rc := 0
  reg_addr := 0xc000000
  reg_size := 0x8000
  num_sources := some { len := 4, cell := fun _ => 96 }
  interrupts_extended := some { len := 16, cell := fun i => if i = 3 then 11 else 9 }
  msi_parent := none

/-- The result of `fdt_parse_aplic_node` on a node of the tree. The call clears the
descriptor before filling it, so the result does not depend on the descriptor passed. -/
def node_descriptor (P : Platform) (fdt : Fdt) (n : FdtNode) : TEE_Result × aplic_data :=
  fdt_parse_aplic_node P fdt n.offset (some n) zero_aplic

/-- The probe policy in the specification's words: the descriptor of the first
controller, in device-tree order, that does not target machine mode; `none` when no
suitable node exists. -/
def spec_probe (P : Platform) (fdt : Fdt) : List FdtNode → Option aplic_data
  | [] => none
  | n :: rest =>
    if (node_descriptor P fdt n).2.targets_mmode then spec_probe P fdt rest
    else some (node_descriptor P fdt n).2

/-- The IDC count `fdt_parse_aplic_node` derives from a node: half the cell count of an
"interrupts-extended" property of more than 4 bytes, and 0 without one. -/
def node_idc_count (n : FdtNode) : Nat :=
  match n.interrupts_extended with
  | some val => if val.len > 4 then u32 (val.len / 4 / 2) else 0
  | none => 0

/-- The platform `virt` with device-tree probing on and `fdt` as the DTB. -/
def virt_with_dt (fdt : Fdt) : Platform := { virt with CFG_DT := true, get_dt := some fdt }

/-- A device tree without any "riscv,aplic" node. -/
def no_aplic_fdt : Fdt where
  aplic_nodes := []
  node_offset_by_phandle := fun _ => -1

/-- A device tree whose only "riscv,aplic" node targets machine mode: the first node of
`two_node_fdt`. -/
def mmode_only_fdt : Fdt where
  aplic_nodes := two_node_fdt.aplic_nodes.take 1
  node_offset_by_phandle := fun _ => -1

/-- The descriptor of the S-mode node of `two_node_fdt`. -/
def smode_node_aplic : aplic_data where
  aplic_base := 0xd000000
  size := 0x8000
  targets_mmode := false
  num_idc := 1
  num_source := 96
  chip := { ops := none }

/-- The descriptor of the M-mode node of `two_node_fdt`. -/
def mmode_node_aplic : aplic_data where
  aplic_base := 0xc000000
  size := 0x8000
  targets_mmode := true
  num_idc := 1
  num_source := 96
  chip := { ops := none }

/-- The descriptor `virt_aplic` with `num_source` raised to `APLIC_MAX_SOURCE` = 1024. -/
def max_source_aplic : aplic_data := { virt_aplic with num_source := APLIC_MAX_SOURCE }

/-- The descriptor `virt_aplic` with 1023 sources. -/
def aplic_1023 : aplic_data := { virt_aplic with num_source := 1023 }

/-- The platform `virt` with device-tree probing on and no DTB (`get_dt()` is NULL). -/
def virt_no_dtb : Platform := { virt with CFG_DT := true, get_dt := none }

/-- A device in which the register at `claimi_addr` holds the word `w` and every other
register reads 0. -/
def claimi_bus (claimi_addr w : Nat) : List Event → Nat → Nat :=
  fun _ a => if a = claimi_addr then w else 0

/-- The platform `virt` seen from hart `h`, with a device whose `claimi` register of that
hart's IDC block, for the descriptor `virt_aplic`, holds the word `w` while every other
register reads 0. -/
def virt_claimi (h w : Nat) : Platform :=
  { virt with
    get_core_pos := h
    bus := claimi_bus
      (u64 (direct.aplic_get_idc_base (virt_hart h) virt_aplic + APLIC_IDC_CLAIMI)) w }

/-! ## Helper lemmas -/

theorem mmio_writes_append (tr1 tr2 : List Event) :
    mmio_writes (tr1 ++ tr2) = mmio_writes tr1 ++ mmio_writes tr2 := by
  induction tr1 with
  | nil => rfl
  | cons e tr ih => cases e <;> simp [mmio_writes, ih]

theorem mmio_reads_append (tr1 tr2 : List Event) :
    mmio_reads (tr1 ++ tr2) = mmio_reads tr1 ++ mmio_reads tr2 := by
  induction tr1 with
  | nil => rfl
  | cons e tr ih => cases e <;> simp [mmio_reads, ih]

theorem handler_calls_append (tr1 tr2 : List Event) :
    handler_calls (tr1 ++ tr2) = handler_calls tr1 ++ handler_calls tr2 := by
  induction tr1 with
  | nil => rfl
  | cons e tr ih => cases e <;> simp [handler_calls, ih]

theorem regfile_append_write (reset : Nat → Nat) (tr : List Event) (a v : Nat) :
    regfile reset (tr ++ [Event.write32 a v]) a = v := by
  simp [regfile, writes_to, mmio_writes_append, mmio_writes, List.filter_append]

theorem u32_of_lt {n : Nat} (h : n < 2 ^ 32) : u32 n = n := Nat.mod_eq_of_lt h

theorem u32_sub_one {s : Nat} (h1 : 1 ≤ s) (h : s < 2 ^ 32) : u32_sub s 1 = s - 1 := by
  unfold u32_sub u32
  omega

theorem source_mode_of_spec_code (P : Platform) (hd : P.irq_types_distinct) (tc : Nat × Nat)
    (h : tc ∈ spec_trigger_codes P) : source_mode_of_type P tc.1 = some tc.2 := by
  simp only [Platform.irq_types_distinct, List.nodup_cons, List.mem_cons, List.mem_singleton,
    not_or, List.not_mem_nil, not_false_eq_true, List.nodup_nil, and_true] at hd
  obtain ⟨⟨h12, h13, h14, h15⟩, ⟨h23, h24, h25⟩, ⟨h34, h35⟩, h45⟩ := hd
  simp only [spec_trigger_codes, List.mem_cons, List.mem_singleton, List.not_mem_nil,
    or_false] at h
  rcases h with h | h | h | h | h <;> subst h <;>
    simp [source_mode_of_type, APLIC_SOURCECFG_SM_INACTIVE, APLIC_SOURCECFG_SM_EDGE_RISE,
      APLIC_SOURCECFG_SM_EDGE_FALL, APLIC_SOURCECFG_SM_LEVEL_HIGH,
      APLIC_SOURCECFG_SM_LEVEL_LOW, *] <;> simp_all [eq_comm]

theorem source_mode_of_invalid (P : Platform) (t : Nat) (h : ¬ P.is_trigger_type t) :
    source_mode_of_type P t = none := by
  simp only [Platform.is_trigger_type, List.mem_cons, List.mem_singleton, List.not_mem_nil,
    or_false, not_or] at h
  simp [source_mode_of_type, h]

theorem spec_code_lt (P : Platform) (tc : Nat × Nat) (h : tc ∈ spec_trigger_codes P) :
    tc.2 < 8 := by
  simp only [spec_trigger_codes, List.mem_cons, List.mem_singleton, List.not_mem_nil,
    or_false] at h
  rcases h with h | h | h | h | h <;> subst h <;> simp

/-- C1: for every source `s` (1-based, 32-bit) and every trigger type of the enumeration,
`aplic_set_source_mode` returns success and performs exactly one write, of the code of
the type (none 0, edge-rising 4, edge-falling 5, level-high 6, level-low 7), to
`aplic_base + 0x0004 + (s-1)*4`; a register file then reads the code back there. -/
theorem set_source_mode_roundtrip (P : Platform) (aplic : aplic_data) (s : Nat)
    (tc : Nat × Nat) (tr : List Event) (reset : Nat → Nat)
    (hd : P.irq_types_distinct) (h1 : 1 ≤ s) (h32 : s < 2 ^ 32)
    (ht : tc ∈ spec_trigger_codes P) :
    aplic_set_source_mode P aplic s tc.1 tr =
      Outcome.ret TEE_Result.TEE_SUCCESS
        (tr ++ [Event.write32 ((aplic.aplic_base + 0x0004 + (s - 1) * 4) % 2 ^ 64) tc.2]) ∧
    regfile reset (aplic_set_source_mode P aplic s tc.1 tr).trace
      ((aplic.aplic_base + 0x0004 + (s - 1) * 4) % 2 ^ 64) = tc.2 := by
  have hc := source_mode_of_spec_code P hd tc ht
  have hlt := spec_code_lt P tc ht
  have hrun : aplic_set_source_mode P aplic s tc.1 tr =
      Outcome.ret TEE_Result.TEE_SUCCESS
        (tr ++ [Event.write32 ((aplic.aplic_base + 0x0004 + (s - 1) * 4) % 2 ^ 64) tc.2]) := by
    have h4 : u32 tc.2 = tc.2 := u32_of_lt (by omega)
    simp [aplic_set_source_mode, hc, bind, Exec.bind, pure, Exec.pure, io_write32, emit,
      sourcecfg_addr, u32_sub_one h1 h32, u64, h4, APLIC_SOURCECFG_BASE, sizeof_uint32_t]
  refine ⟨hrun, ?_⟩
  rw [hrun]
  exact regfile_append_write reset tr _ _

theorem set_source_mode_roundtrip_witness :
    aplic_set_source_mode virt virt_aplic 5 4 [] =
      Outcome.ret TEE_Result.TEE_SUCCESS [Event.write32 0xd000014 6] ∧
    regfile (fun _ => 0) (aplic_set_source_mode virt virt_aplic 5 4 []).trace 0xd000014 = 6 :=
  set_source_mode_roundtrip virt virt_aplic 5 (4, 6) [] (fun _ => 0) (by decide) (by decide)
    (by decide) (by decide)

/-- C2: for every source and every type value outside the five trigger types,
`aplic_set_source_mode` returns bad-parameters and records no event, hence no write. -/
theorem set_source_mode_bad_type (P : Platform) (aplic : aplic_data) (s t : Nat)
    (tr : List Event) (ht : ¬ P.is_trigger_type t) :
    aplic_set_source_mode P aplic s t tr =
      Outcome.ret TEE_Result.TEE_ERROR_BAD_PARAMETERS tr := by
  simp [aplic_set_source_mode, source_mode_of_invalid P t ht, pure, Exec.pure]

theorem set_source_mode_bad_type_witness :
    aplic_set_source_mode virt virt_aplic 5 99 [] =
      Outcome.ret TEE_Result.TEE_ERROR_BAD_PARAMETERS [] :=
  set_source_mode_bad_type virt virt_aplic 5 99 [] (by decide)

theorem it_handle_run (P : Platform) (aplic : aplic_data) (tr : List Event) :
    direct.aplic_it_handle P aplic tr =
      Outcome.ret ()
        (tr ++ [Event.read32 (u64 (aplic.aplic_base + APLIC_IDC_CLAIMI))
                  (u32 (P.bus tr (u64 (aplic.aplic_base + APLIC_IDC_CLAIMI)))),
                if u32 (P.bus tr (u64 (aplic.aplic_base + APLIC_IDC_CLAIMI))) >>>
                    APLIC_IDC_TOPI_ID_SHIFT ≤ aplic.num_source
                then Event.interrupt_call_handlers
                  (u32 (P.bus tr (u64 (aplic.aplic_base + APLIC_IDC_CLAIMI))) >>>
                    APLIC_IDC_TOPI_ID_SHIFT)
                else Event.dmsg_ignoring
                  (u32 (P.bus tr (u64 (aplic.aplic_base + APLIC_IDC_CLAIMI))) >>>
                    APLIC_IDC_TOPI_ID_SHIFT)]) := by
  simp only [direct.aplic_it_handle, bind, Exec.bind, io_read32]
  split <;> simp [emit, *]

/-- C4: on a claim word with identifier 0 (the idle sentinel) the direct-mode
`aplic_it_handle` does invoke `interrupt_call_handlers`, with source 0; on identifier
1024 with 32 sources it invokes no handler and does not panic. -/
theorem it_handle_idle_claim_is_dispatched :
    direct.aplic_it_handle (virt_reading (0 <<< 16)) virt_aplic [] =
      Outcome.ret () [Event.read32 0xd00001c 0, Event.interrupt_call_handlers 0] ∧
    direct.aplic_it_handle (virt_reading (1024 <<< 16)) virt_aplic [] =
      Outcome.ret () [Event.read32 0xd00001c (1024 <<< 16), Event.dmsg_ignoring 1024] := by
  constructor <;> rfl

/-- C9: the one read of the direct-mode `aplic_it_handle` is at
`aplic_base + 0x1C` whatever the calling hart, not at the `claimi` register of the
hart's IDC block, `aplic_base + 0x4000 + hart_pos * 0x20 + 0x1C`: on hart 1 with base
0xd000000 the read is at 0xd00001c while the hart's `claimi` is at 0xd00403c. -/
theorem it_handle_reads_outside_idc :
    (∀ (P : Platform) (aplic : aplic_data) (tr : List Event),
      mmio_reads (direct.aplic_it_handle P aplic tr).trace =
        mmio_reads tr ++ [(aplic.aplic_base + 0x1C) % 2 ^ 64]) ∧
    mmio_reads (direct.aplic_it_handle (virt_hart 1) virt_aplic []).trace = [0xd00001c] ∧
    direct.aplic_get_idc_base (virt_hart 1) virt_aplic + APLIC_IDC_CLAIMI = 0xd00403c := by
  refine ⟨?_, ?_, ?_⟩
  · intro P aplic tr
    rw [it_handle_run]
    simp [Outcome.trace, mmio_reads_append, mmio_reads, u64, APLIC_IDC_CLAIMI]
    split <;> simp [mmio_reads]
  · rfl
  · rfl

theorem io_write32_run (a v : Nat) (tr : List Event) :
    io_write32 a v tr = Outcome.ret () (tr ++ [Event.write32 (u64 a) (u32 v)]) := rfl

theorem io_read32_run (P : Platform) (a : Nat) (tr : List Event) :
    io_read32 P a tr =
      Outcome.ret (u32 (P.bus tr (u64 a))) (tr ++ [Event.read32 (u64 a) (u32 (P.bus tr (u64 a)))]) :=
  rfl

theorem bind_run {α β : Type} (m : Exec α) (f : α → Exec β) (tr : List Event) :
    (m >>= f) tr = match m tr with
      | Outcome.ret a tr1 => f a tr1
      | Outcome.panic tr1 => Outcome.panic tr1 := rfl

theorem pure_run {α : Type} (a : α) (tr : List Event) :
    (pure a : Exec α) tr = Outcome.ret a tr := rfl

theorem panic_run {α : Type} (tr : List Event) : (panic : Exec α) tr = Outcome.panic tr := rfl

theorem sourcecfg_addr_eq (aplic : aplic_data) {s : Nat} (h1 : 1 ≤ s) (h32 : s < 2 ^ 32) :
    u64 (sourcecfg_addr aplic s) = (aplic.aplic_base + 0x0004 + (s - 1) * 4) % 2 ^ 64 := by
  simp [sourcecfg_addr, u32_sub_one h1 h32, u64, APLIC_SOURCECFG_BASE, sizeof_uint32_t]

theorem set_source_mode_run (P : Platform) (aplic : aplic_data) (s : Nat) (tc : Nat × Nat)
    (tr : List Event) (hd : P.irq_types_distinct) (ht : tc ∈ spec_trigger_codes P) :
    aplic_set_source_mode P aplic s tc.1 tr =
      Outcome.ret TEE_Result.TEE_SUCCESS
        (tr ++ [Event.write32 (u64 (sourcecfg_addr aplic s)) tc.2]) := by
  have hc := source_mode_of_spec_code P hd tc ht
  have h4 : u32 tc.2 = tc.2 := u32_of_lt (by have := spec_code_lt P tc ht; omega)
  simp [aplic_set_source_mode, hc, bind_run, pure_run, io_write32_run, h4]

theorem hart_field (h : Nat) (hh : h < 2 ^ 14) :
    u32 ((u32 (u64 h) &&& APLIC_TARGET_HART_IDX_MASK) <<< APLIC_TARGET_HART_IDX_SHIFT) =
      h <<< 18 := by
  have h1 : u32 (u64 h) = h := by unfold u32 u64; omega
  have h2 : h &&& APLIC_TARGET_HART_IDX_MASK = h := by
    have := Nat.and_pow_two_sub_one_of_lt_two_pow hh
    simpa [APLIC_TARGET_HART_IDX_MASK] using this
  rw [h1, h2]
  simp only [APLIC_TARGET_HART_IDX_SHIFT, Nat.shiftLeft_eq, u32]
  omega

theorem low_field_or (h v : Nat) (hv : v < 2 ^ 18) (hh : h < 2 ^ 14) :
    u32 (h <<< 18 ||| v) = h <<< 18 ||| v := by
  apply u32_of_lt
  apply Nat.or_lt_two_pow
  · rw [Nat.shiftLeft_eq]; omega
  · omega

/-- The spec's retrigger condition on the type agrees with the code read back. -/
theorem level_iff_code (P : Platform) (hd : P.irq_types_distinct) (tc : Nat × Nat)
    (ht : tc ∈ spec_trigger_codes P) :
    (tc.2 = 6 ∨ tc.2 = 7) ↔ (tc.1 = P.IRQ_TYPE_LEVEL_HIGH ∨ tc.1 = P.IRQ_TYPE_LEVEL_LOW) := by
  simp only [Platform.irq_types_distinct, List.nodup_cons, List.mem_cons, List.mem_singleton,
    not_or, List.not_mem_nil, not_false_eq_true, List.nodup_nil, and_true] at hd
  obtain ⟨⟨h12, h13, h14, h15⟩, ⟨h23, h24, h25⟩, ⟨h34, h35⟩, h45⟩ := hd
  simp only [spec_trigger_codes, List.mem_cons, List.mem_singleton, List.not_mem_nil,
    or_false] at ht
  rcases ht with h | h | h | h | h <;> subst h <;> simp [*]

theorem target_addr_eq (aplic : aplic_data) {s : Nat} (h1 : 1 ≤ s) (h32 : s < 2 ^ 32) :
    u64 (aplic.aplic_base + APLIC_TARGET_BASE + u32_sub (u32 s) 1 * sizeof_uint32_t) =
      (aplic.aplic_base + 0x3004 + (s - 1) * 4) % 2 ^ 64 := by
  simp [u32_of_lt h32, u32_sub_one h1 h32, u64, APLIC_TARGET_BASE, sizeof_uint32_t]

/-- C5: in MSI mode, for a source `1 ≤ s ≤ num_source`, a trigger type of the enumeration
and a calling hart below 2^14, on a device whose `sourcecfg[s]` reads back the word last
written to it, `add(s, t, prio)` returns without panic and its writes are, in order and
whatever `prio` is: `s` to clrienum, the code of `t` to `sourcecfg[s]`, `s` to setipnum
exactly when `t` is level-high or level-low, and `(hart << 18) | 2` to `target[s]`. -/
theorem msi_add_write_trace (P : Platform) (aplic : aplic_data) (s prio : Nat)
    (tc : Nat × Nat) (tr : List Event)
    (hd : P.irq_types_distinct) (hh : P.get_core_pos < 2 ^ 14)
    (h1 : 1 ≤ s) (hs : s ≤ aplic.num_source) (hn : aplic.num_source < 2 ^ 32)
    (ht : tc ∈ spec_trigger_codes P)
    (hrb : ∀ (hist : List Event) (v : Nat),
      P.bus (hist ++ [Event.write32 ((aplic.aplic_base + 0x0004 + (s - 1) * 4) % 2 ^ 64) v])
        ((aplic.aplic_base + 0x0004 + (s - 1) * 4) % 2 ^ 64) = v) :
    (msi.aplic_op_add P aplic s tc.1 prio tr).panicked = false ∧
    mmio_writes (msi.aplic_op_add P aplic s tc.1 prio tr).trace =
      mmio_writes tr ++
        [((aplic.aplic_base + 0x1FDC) % 2 ^ 64, s),
         ((aplic.aplic_base + 0x0004 + (s - 1) * 4) % 2 ^ 64, tc.2)] ++
        (if tc.1 = P.IRQ_TYPE_LEVEL_HIGH ∨ tc.1 = P.IRQ_TYPE_LEVEL_LOW
          then [((aplic.aplic_base + 0x1CDC) % 2 ^ 64, s)] else []) ++
        [((aplic.aplic_base + 0x3004 + (s - 1) * 4) % 2 ^ 64, P.get_core_pos <<< 18 ||| 2)] := by
  have h32 : s < 2 ^ 32 := by omega
  have hs0 : ¬ (s = 0 ∨ s > aplic.num_source) := by omega
  have hu : u32 s = s := u32_of_lt h32
  have hcode := spec_code_lt P tc ht
  have hsm : tc.2 &&& APLIC_SOURCECFG_SM_MASK = tc.2 := by
    have := Nat.and_pow_two_sub_one_of_lt_two_pow (x := tc.2) (n := 3) (by omega)
    simpa [APLIC_SOURCECFG_SM_MASK] using this
  have hlev := level_iff_code P hd tc ht
  have haddr := sourcecfg_addr_eq aplic h1 h32
  have hread : u32 (P.bus
      ((tr ++ [Event.write32 (u64 (aplic.aplic_base + APLIC_CLRIENUM)) s]) ++
        [Event.write32 (u64 (sourcecfg_addr aplic s)) tc.2])
      (u64 (sourcecfg_addr aplic s))) = tc.2 := by
    rw [haddr, hrb]
    exact u32_of_lt (by omega)
  have hword : u32 (u32 ((u32 (u64 P.get_core_pos) &&& APLIC_TARGET_HART_IDX_MASK) <<<
        APLIC_TARGET_HART_IDX_SHIFT) |||
      u32 ((0 &&& APLIC_TARGET_GUEST_IDX_MASK) <<< APLIC_TARGET_GUEST_IDX_SHIFT) |||
      u32 ((APLIC_DEFAULT_EIID &&& APLIC_TARGET_EIID_MASK) <<< APLIC_TARGET_EIID_SHIFT)) =
      P.get_core_pos <<< 18 ||| 2 := by
    rw [hart_field _ hh]
    have : u32 ((APLIC_DEFAULT_EIID &&& APLIC_TARGET_EIID_MASK) <<< APLIC_TARGET_EIID_SHIFT)
        = 2 := by decide
    rw [this]
    have : u32 ((0 &&& APLIC_TARGET_GUEST_IDX_MASK) <<< APLIC_TARGET_GUEST_IDX_SHIFT) = 0 := by
      decide
    rw [this, Nat.or_zero]
    exact low_field_or _ _ (by omega) hh
  have hrun : msi.aplic_op_add P aplic s tc.1 prio tr =
      Outcome.ret ()
        ((((tr ++ [Event.write32 (u64 (aplic.aplic_base + APLIC_CLRIENUM)) s]) ++
          [Event.write32 (u64 (sourcecfg_addr aplic s)) tc.2]) ++
          [Event.read32 (u64 (sourcecfg_addr aplic s)) tc.2]) ++
          (if tc.2 = 6 ∨ tc.2 = 7
            then [Event.write32 (u64 (aplic.aplic_base + APLIC_SETIPNUM)) s] else []) ++
          [Event.write32 ((aplic.aplic_base + 0x3004 + (s - 1) * 4) % 2 ^ 64)
            (P.get_core_pos <<< 18 ||| 2)]) := by
    simp only [msi.aplic_op_add, msi.aplic_msi_irq_retrigger_level, msi.aplic_get_source_mode,
      msi.aplic_set_target, aplic_disable_interrupt, bind_run, hs0, if_false, pure_run,
      io_write32_run, hu, set_source_mode_run P aplic s tc _ hd ht, TEE_Result.failed,
      Bool.false_eq_true]
    have hra : u64 (aplic.aplic_base + APLIC_SOURCECFG_BASE + u32_sub s 1 * sizeof_uint32_t) =
        u64 (sourcecfg_addr aplic s) := rfl
    simp only [io_read32_run, hra, hread, hsm, APLIC_SOURCECFG_SM_LEVEL_HIGH,
      APLIC_SOURCECFG_SM_LEVEL_LOW]
    have hta := target_addr_eq aplic h1 h32
    rw [hu] at hta
    by_cases hl : tc.2 = 6 ∨ tc.2 = 7
    · simp only [hl, if_true, io_write32_run, hu, hta, hword]
    · simp only [hl, if_false, io_write32_run, pure_run, hu, hta, hword]
      simp
  rw [hrun]
  refine ⟨rfl, ?_⟩
  simp only [Outcome.trace, mmio_writes_append, mmio_writes, haddr, hlev]
  by_cases hl : tc.1 = P.IRQ_TYPE_LEVEL_HIGH ∨ tc.1 = P.IRQ_TYPE_LEVEL_LOW
  · simp [hl, mmio_writes, u64, APLIC_CLRIENUM, APLIC_SETIPNUM]
  · simp [hl, mmio_writes, u64, APLIC_CLRIENUM, APLIC_SETIPNUM]


theorem msi_add_write_trace_witness :
    (msi.aplic_op_add (virt_hart 3) virt_aplic 7 4 0 []).panicked = false ∧
    mmio_writes (msi.aplic_op_add (virt_hart 3) virt_aplic 7 4 0 []).trace =
      [(0xd001fdc, 7), (0xd00001c, 6), (0xd001cdc, 7), (0xd00301c, 3 <<< 18 ||| 2)] :=
  msi_add_write_trace (virt_hart 3) virt_aplic 7 0 (4, 6) [] (by decide) (by decide)
    (by decide) (by decide) (by decide) (by decide)
    (fun hist v => regfile_append_write (fun _ => 0) hist _ v)

/-- C6: in direct mode, for a source `1 ≤ s ≤ num_source`, a trigger type of the
enumeration, a calling hart below 2^14 and a priority `1 ≤ p ≤ 255`, `add(s, t, p)`
returns after exactly three events, all writes, in this order: `s` to clrienum, the code
of `t` to `sourcecfg[s]`, and `(hart << 18) | p` to `target[s]` at
`aplic_base + 0x3004 + (s-1)*4`. -/
theorem direct_add_write_trace (P : Platform) (aplic : aplic_data) (s p : Nat)
    (tc : Nat × Nat) (tr : List Event)
    (hd : P.irq_types_distinct) (hh : P.get_core_pos < 2 ^ 14)
    (h1 : 1 ≤ s) (hs : s ≤ aplic.num_source) (hn : aplic.num_source < 2 ^ 32)
    (ht : tc ∈ spec_trigger_codes P) (_hp1 : 1 ≤ p) (hp : p ≤ 255) :
    direct.aplic_op_add P aplic s tc.1 p tr =
      Outcome.ret ()
        (tr ++ [Event.write32 ((aplic.aplic_base + 0x1FDC) % 2 ^ 64) s,
                Event.write32 ((aplic.aplic_base + 0x0004 + (s - 1) * 4) % 2 ^ 64) tc.2,
                Event.write32 ((aplic.aplic_base + 0x3004 + (s - 1) * 4) % 2 ^ 64)
                  (P.get_core_pos <<< 18 ||| p)]) := by
  have h32 : s < 2 ^ 32 := by omega
  have hs0 : ¬ (s = 0 ∨ s > aplic.num_source) := by omega
  have hu : u32 s = s := u32_of_lt h32
  have haddr := sourcecfg_addr_eq aplic h1 h32
  have hta := target_addr_eq aplic h1 h32
  rw [hu] at hta
  have hword : u32 (u32 ((u32 (u64 P.get_core_pos) &&& APLIC_TARGET_HART_IDX_MASK) <<<
        APLIC_TARGET_HART_IDX_SHIFT) |||
      u32 ((p &&& APLIC_TARGET_IPRIO_MASK) <<< APLIC_TARGET_IPRIO_SHIFT)) =
      P.get_core_pos <<< 18 ||| p := by
    rw [hart_field _ hh]
    have hpm : p &&& APLIC_TARGET_IPRIO_MASK = p := by
      have := Nat.and_pow_two_sub_one_of_lt_two_pow (x := p) (n := 8) (by omega)
      simpa [APLIC_TARGET_IPRIO_MASK] using this
    have : u32 ((p &&& APLIC_TARGET_IPRIO_MASK) <<< APLIC_TARGET_IPRIO_SHIFT) = p := by
      rw [hpm]
      simp only [APLIC_TARGET_IPRIO_SHIFT, Nat.shiftLeft_eq, u32]
      omega
    rw [this]
    exact low_field_or _ _ (by omega) hh
  simp only [direct.aplic_op_add, direct.aplic_set_target, aplic_disable_interrupt, bind_run,
    hs0, if_false, pure_run, io_write32_run, hu, set_source_mode_run P aplic s tc _ hd ht,
    TEE_Result.failed, Bool.false_eq_true, haddr, hta, hword]
  simp [u64, APLIC_CLRIENUM]

theorem direct_add_write_trace_witness :
    direct.aplic_op_add (virt_hart 3) virt_aplic 5 4 1 [] =
      Outcome.ret ()
        [Event.write32 0xd001fdc 5, Event.write32 0xd000014 6,
         Event.write32 0xd003014 (3 <<< 18 ||| 1)] :=
  direct_add_write_trace (virt_hart 3) virt_aplic 5 1 (4, 6) [] (by decide) (by decide)
    (by decide) (by decide) (by decide) (by decide) (by decide) (by decide)

/-- C7: in both back-ends each of the chip operations add, enable, disable, mask, unmask
and raise-peripheral-interrupt, called with a source that is 0 or greater than
`num_source`, panics with the event history unchanged, that is before any MMIO access. -/
theorem ops_panic_out_of_range (b : Backend) (P : Platform) (aplic : aplic_data)
    (s type prio : Nat) (tr : List Event) (h : s = 0 ∨ s > aplic.num_source) :
    (b.ops P).add aplic s type prio tr = Outcome.panic tr ∧
    (b.ops P).enable aplic s tr = Outcome.panic tr ∧
    (b.ops P).disable aplic s tr = Outcome.panic tr ∧
    (b.ops P).mask aplic s tr = Outcome.panic tr ∧
    (b.ops P).unmask aplic s tr = Outcome.panic tr ∧
    (b.ops P).raise_pi aplic s tr = Outcome.panic tr := by
  cases b <;>
    simp [Backend.ops, direct.aplic_ops, msi.aplic_ops, direct.aplic_op_add,
      direct.aplic_op_enable, direct.aplic_op_disable, direct.aplic_op_raise_pi,
      msi.aplic_op_add, msi.aplic_op_enable, msi.aplic_op_disable, msi.aplic_op_raise_pi,
      bind_run, panic_run, h]

theorem ops_panic_out_of_range_witness :
    ((Backend.direct.ops virt).add virt_aplic 0 4 1 [] = Outcome.panic [] ∧
     (Backend.direct.ops virt).enable virt_aplic 0 [] = Outcome.panic [] ∧
     (Backend.direct.ops virt).disable virt_aplic 0 [] = Outcome.panic [] ∧
     (Backend.direct.ops virt).mask virt_aplic 0 [] = Outcome.panic [] ∧
     (Backend.direct.ops virt).unmask virt_aplic 0 [] = Outcome.panic [] ∧
     (Backend.direct.ops virt).raise_pi virt_aplic 0 [] = Outcome.panic []) ∧
    ((Backend.msi.ops virt).add virt_aplic 33 4 1 [] = Outcome.panic [] ∧
     (Backend.msi.ops virt).enable virt_aplic 33 [] = Outcome.panic [] ∧
     (Backend.msi.ops virt).disable virt_aplic 33 [] = Outcome.panic [] ∧
     (Backend.msi.ops virt).mask virt_aplic 33 [] = Outcome.panic [] ∧
     (Backend.msi.ops virt).unmask virt_aplic 33 [] = Outcome.panic [] ∧
     (Backend.msi.ops virt).raise_pi virt_aplic 33 [] = Outcome.panic []) :=
  ⟨ops_panic_out_of_range Backend.direct virt virt_aplic 0 4 1 [] (by decide),
   ops_panic_out_of_range Backend.msi virt virt_aplic 33 4 1 [] (by decide)⟩

/-- C8: for a source `1 ≤ s ≤ num_source`, each single-source operation returns after
exactly one event, the write of `s`: enable and unmask to `aplic_base + 0x1EDC`, disable
and mask to `aplic_base + 0x1FDC`, raise-peripheral-interrupt and set-pending to
`aplic_base + 0x1CDC`, clear-pending to `aplic_base + 0x1DDC`. -/
theorem single_source_ops_write (b : Backend) (P : Platform) (aplic : aplic_data) (s : Nat)
    (tr : List Event) (h1 : 1 ≤ s) (hs : s ≤ aplic.num_source)
    (hn : aplic.num_source < 2 ^ 32) :
    (b.ops P).enable aplic s tr =
      Outcome.ret () (tr ++ [Event.write32 ((aplic.aplic_base + 0x1EDC) % 2 ^ 64) s]) ∧
    (b.ops P).unmask aplic s tr =
      Outcome.ret () (tr ++ [Event.write32 ((aplic.aplic_base + 0x1EDC) % 2 ^ 64) s]) ∧
    (b.ops P).disable aplic s tr =
      Outcome.ret () (tr ++ [Event.write32 ((aplic.aplic_base + 0x1FDC) % 2 ^ 64) s]) ∧
    (b.ops P).mask aplic s tr =
      Outcome.ret () (tr ++ [Event.write32 ((aplic.aplic_base + 0x1FDC) % 2 ^ 64) s]) ∧
    (b.ops P).raise_pi aplic s tr =
      Outcome.ret () (tr ++ [Event.write32 ((aplic.aplic_base + 0x1CDC) % 2 ^ 64) s]) ∧
    aplic_enable_interrupt aplic s tr =
      Outcome.ret () (tr ++ [Event.write32 ((aplic.aplic_base + 0x1EDC) % 2 ^ 64) s]) ∧
    aplic_disable_interrupt aplic s tr =
      Outcome.ret () (tr ++ [Event.write32 ((aplic.aplic_base + 0x1FDC) % 2 ^ 64) s]) ∧
    aplic_set_pending aplic s tr =
      Outcome.ret () (tr ++ [Event.write32 ((aplic.aplic_base + 0x1CDC) % 2 ^ 64) s]) ∧
    aplic_clear_pending aplic s tr =
      Outcome.ret () (tr ++ [Event.write32 ((aplic.aplic_base + 0x1DDC) % 2 ^ 64) s]) := by
  have h32 : s < 2 ^ 32 := by omega
  have hs0 : ¬ (s = 0 ∨ s > aplic.num_source) := by omega
  have hu : u32 s = s := u32_of_lt h32
  cases b <;>
    simp [Backend.ops, direct.aplic_ops, msi.aplic_ops,
      direct.aplic_op_enable, direct.aplic_op_disable, direct.aplic_op_raise_pi,
      msi.aplic_op_enable, msi.aplic_op_disable, msi.aplic_op_raise_pi,
      aplic_enable_interrupt, aplic_disable_interrupt, aplic_set_pending, aplic_clear_pending,
      bind_run, pure_run, io_write32_run, hs0, hu, u64, APLIC_SETIENUM, APLIC_CLRIENUM,
      APLIC_SETIPNUM, APLIC_CLRIPNUM]

theorem single_source_ops_write_witness :
    (Backend.direct.ops virt).enable virt_aplic 5 [] =
      Outcome.ret () [Event.write32 0xd001edc 5] ∧
    (Backend.direct.ops virt).unmask virt_aplic 5 [] =
      Outcome.ret () [Event.write32 0xd001edc 5] ∧
    (Backend.direct.ops virt).disable virt_aplic 5 [] =
      Outcome.ret () [Event.write32 0xd001fdc 5] ∧
    (Backend.direct.ops virt).mask virt_aplic 5 [] =
      Outcome.ret () [Event.write32 0xd001fdc 5] ∧
    (Backend.direct.ops virt).raise_pi virt_aplic 5 [] =
      Outcome.ret () [Event.write32 0xd001cdc 5] ∧
    aplic_enable_interrupt virt_aplic 5 [] = Outcome.ret () [Event.write32 0xd001edc 5] ∧
    aplic_disable_interrupt virt_aplic 5 [] = Outcome.ret () [Event.write32 0xd001fdc 5] ∧
    aplic_set_pending virt_aplic 5 [] = Outcome.ret () [Event.write32 0xd001cdc 5] ∧
    aplic_clear_pending virt_aplic 5 [] = Outcome.ret () [Event.write32 0xd001ddc 5] :=
  single_source_ops_write Backend.direct virt virt_aplic 5 [] (by decide) (by decide)
    (by decide)

/-! ### The device-tree probe always returns and performs no MMIO write -/

theorem probe_after_loop_quiet (aplic : aplic_data) (tr : List Event) :
    ∃ r tr1, probe_after_loop aplic tr = Outcome.ret r tr1 ∧
      mmio_writes tr1 = mmio_writes tr := by
  unfold probe_after_loop
  by_cases h : aplic.targets_mmode = true
  · refine ⟨(TEE_Result.TEE_ERROR_ITEM_NOT_FOUND, aplic), tr ++ [Event.free_aplic], ?_, ?_⟩
    · simp [h, bind_run, pure_run, emit]
    · simp [mmio_writes_append, mmio_writes]
  · refine ⟨(TEE_Result.TEE_ERROR_ITEM_NOT_FOUND, aplic), tr, ?_, rfl⟩
    simp [h, bind_run, pure_run]

theorem probe_fail_quiet (r : TEE_Result × aplic_data) (tr : List Event) :
    ∃ r1 tr1, (do emit Event.emsg_parse_failed; pure r : Exec (TEE_Result × aplic_data)) tr =
        Outcome.ret r1 tr1 ∧ mmio_writes tr1 = mmio_writes tr :=
  ⟨r, tr ++ [Event.emsg_parse_failed], rfl, by simp [mmio_writes_append, mmio_writes]⟩

theorem probe_past_last_quiet (P : Platform) (fdt : Fdt) (aplic : aplic_data)
    (tr : List Event) :
    ∃ r tr1, probe_past_last P fdt aplic tr = Outcome.ret r tr1 ∧
      mmio_writes tr1 = mmio_writes tr := by
  unfold probe_past_last
  split
  · exact probe_after_loop_quiet aplic tr
  · dsimp only
    split
    · exact probe_fail_quiet _ tr
    · split
      · exact ⟨_, tr, rfl, rfl⟩
      · exact probe_after_loop_quiet _ tr

theorem probe_loop_quiet (P : Platform) (fdt : Fdt) (rest : List FdtNode) :
    ∀ (n : FdtNode) (aplic : aplic_data) (tr : List Event),
      ∃ r tr1, probe_loop P fdt n rest aplic tr = Outcome.ret r tr1 ∧
        mmio_writes tr1 = mmio_writes tr := by
  induction rest with
  | nil =>
    intro n aplic tr
    unfold probe_loop
    split
    · exact probe_after_loop_quiet aplic tr
    · dsimp only
      split
      · exact probe_fail_quiet _ tr
      · split
        · exact ⟨_, tr, rfl, rfl⟩
        · exact probe_past_last_quiet P fdt _ tr
  | cons m rest ih =>
    intro n aplic tr
    unfold probe_loop
    split
    · exact probe_after_loop_quiet aplic tr
    · dsimp only
      split
      · exact probe_fail_quiet _ tr
      · split
        · exact ⟨_, tr, rfl, rfl⟩
        · exact ih m _ tr

theorem init_from_device_tree_quiet (P : Platform) (aplic : aplic_data) (tr : List Event) :
    ∃ r tr1, aplic_init_from_device_tree P aplic tr = Outcome.ret r tr1 ∧
      mmio_writes tr1 = mmio_writes tr := by
  unfold aplic_init_from_device_tree
  cases P.get_dt with
  | none =>
    exact ⟨_, tr ++ [Event.emsg_no_dtb], rfl, by simp [mmio_writes_append, mmio_writes]⟩
  | some fdt =>
    dsimp only
    rcases h : fdt.aplic_nodes with _ | ⟨n, rest⟩
    · exact probe_past_last_quiet P fdt aplic tr
    · exact probe_loop_quiet P fdt rest n aplic tr

theorem writes_to_append (a : Nat) (tr1 tr2 : List Event) :
    writes_to a (tr1 ++ tr2) = writes_to a tr1 ++ writes_to a tr2 := by
  simp [writes_to, mmio_writes_append]

theorem writes_to_congr (a : Nat) {tr1 tr2 : List Event}
    (h : mmio_writes tr1 = mmio_writes tr2) : writes_to a tr1 = writes_to a tr2 := by
  simp [writes_to, h]

theorem direct_init_base_addr_run (P : Platform) (aplic : aplic_data) (pa : Nat)
    (tr : List Event)
    (hok : (P.NDEBUG = true ∨ P.cpu_mmu_enabled = true) ∧ P.core_mmu_get_va pa P.APLIC_SIZE ≠ 0) :
    direct.aplic_init_base_addr P aplic pa tr =
      Outcome.ret { aplic with aplic_base := P.core_mmu_get_va pa P.APLIC_SIZE,
                               num_source := u32 P.APLIC_NUM_SOURCE,
                               num_idc := u32 P.APLIC_NUM_IDC } tr := by
  obtain ⟨h1, h2⟩ := hok
  have h1' : (P.NDEBUG || P.cpu_mmu_enabled) = true := by simpa using h1
  simp [direct.aplic_init_base_addr, assert, bind_run, pure_run, h1', h2]

theorem msi_init_base_addr_run (P : Platform) (aplic : aplic_data) (pa : Nat)
    (tr : List Event)
    (hok : (P.NDEBUG = true ∨ P.cpu_mmu_enabled = true) ∧ P.core_mmu_get_va pa P.APLIC_SIZE ≠ 0) :
    msi.aplic_init_base_addr P aplic pa tr =
      Outcome.ret { aplic with aplic_base := P.core_mmu_get_va pa P.APLIC_SIZE,
                               num_source := u32 P.APLIC_NUM_SOURCE,
                               num_idc := 0 } tr := by
  obtain ⟨h1, h2⟩ := hok
  have h1' : (P.NDEBUG || P.cpu_mmu_enabled) = true := by simpa using h1
  simp [msi.aplic_init_base_addr, assert, bind_run, pure_run, h1', h2]

theorem idc_not_domaincfg (base h off : Nat) (hh : h < 2 ^ 14) (ho : off < 32) :
    u64 (u64 (base + APLIC_IDC_BASE + u64 h * APLIC_IDC_SIZE) + off) ≠
      (base + 0x0000) % 2 ^ 64 := by
  simp only [u64, APLIC_IDC_BASE, APLIC_IDC_SIZE]
  omega

theorem writes_to_write_same (a v : Nat) : writes_to a [Event.write32 a v] = [v] := by
  simp [writes_to, mmio_writes]

theorem writes_to_write_ne (a b v : Nat) (h : b ≠ a) : writes_to a [Event.write32 b v] = [] := by
  simp [writes_to, mmio_writes, h]

/-- C10: whenever primary initialization completes (device-tree probing is on, or the
compile-time base maps and the MMU assertion holds), with the calling hart below 2^14,
`aplic_init` returns and writes to domaincfg (`aplic_base + 0x0000` of the descriptor it
leaves) exactly once: 0x00000100 in direct mode and 0x00000104 in MSI mode. -/
theorem init_writes_domaincfg_once (b : Backend) (P : Platform) (aplic0 : aplic_data)
    (pa : Nat) (tr : List Event) (hh : P.get_core_pos < 2 ^ 14)
    (hok : P.CFG_DT = true ∨
      ((P.NDEBUG = true ∨ P.cpu_mmu_enabled = true) ∧ P.core_mmu_get_va pa P.APLIC_SIZE ≠ 0)) :
    ∃ aplic tr1, b.aplic_init P aplic0 pa tr = Outcome.ret aplic tr1 ∧
      writes_to ((aplic.aplic_base + 0x0000) % 2 ^ 64) tr1 =
        writes_to ((aplic.aplic_base + 0x0000) % 2 ^ 64) tr ++
          [match b with
           | Backend.direct => 0x00000100
           | Backend.msi => 0x00000104] := by
  cases b
  · simp only [Backend.aplic_init, direct.aplic_init, direct.aplic_init_per_hart,
      direct.aplic_get_idc_base, bind_run]
    by_cases hdt : P.CFG_DT = true
    · obtain ⟨r, tr0, hr, hw⟩ := init_from_device_tree_quiet P aplic0 tr
      simp only [hdt, if_true, bind_run, hr, pure_run, io_write32_run, emit]
      refine ⟨_, _, rfl, ?_⟩
      simp only [writes_to_append, writes_to_congr _ hw]
      rw [writes_to_write_ne _ _ _ (idc_not_domaincfg _ _ _ hh (by decide : APLIC_IDC_IDELIVERY < 32)),
        writes_to_write_ne _ _ _ (idc_not_domaincfg _ _ _ hh (by decide : APLIC_IDC_ITHRESHOLD < 32))]
      simp [writes_to, mmio_writes, u64, u32, APLIC_DOMAINCFG, APLIC_DOMAINCFG_IE]
    · have hok2 := hok.resolve_left hdt
      simp only [hdt, if_false, Bool.false_eq_true, bind_run, pure_run,
        direct_init_base_addr_run P aplic0 pa tr hok2, io_write32_run, emit]
      refine ⟨_, _, rfl, ?_⟩
      simp only [writes_to_append]
      rw [writes_to_write_ne _ _ _ (idc_not_domaincfg _ _ _ hh (by decide : APLIC_IDC_IDELIVERY < 32)),
        writes_to_write_ne _ _ _ (idc_not_domaincfg _ _ _ hh (by decide : APLIC_IDC_ITHRESHOLD < 32))]
      simp [writes_to, mmio_writes, u64, u32, APLIC_DOMAINCFG, APLIC_DOMAINCFG_IE]
  · simp only [Backend.aplic_init, msi.aplic_init, bind_run]
    by_cases hdt : P.CFG_DT = true
    · obtain ⟨r, tr0, hr, hw⟩ := init_from_device_tree_quiet P aplic0 tr
      simp only [hdt, if_true, bind_run, hr, pure_run, io_write32_run]
      refine ⟨_, _, rfl, ?_⟩
      simp only [writes_to_append, writes_to_congr _ hw]
      simp [writes_to, mmio_writes, u64, u32, APLIC_DOMAINCFG, APLIC_DOMAINCFG_IE,
        APLIC_DOMAINCFG_DM]
    · have hok2 := hok.resolve_left hdt
      simp only [hdt, if_false, Bool.false_eq_true, bind_run, pure_run,
        msi_init_base_addr_run P aplic0 pa tr hok2, io_write32_run]
      refine ⟨_, _, rfl, ?_⟩
      simp only [writes_to_append]
      simp [writes_to, mmio_writes, u64, u32, APLIC_DOMAINCFG, APLIC_DOMAINCFG_IE,
        APLIC_DOMAINCFG_DM]


theorem init_writes_domaincfg_once_witness :
    (∃ aplic tr1, Backend.direct.aplic_init virt zero_aplic 0xd000000 [] =
        Outcome.ret aplic tr1 ∧
      writes_to ((aplic.aplic_base + 0x0000) % 2 ^ 64) tr1 = [0x00000100]) ∧
    (∃ aplic tr1, Backend.msi.aplic_init virt_dt zero_aplic 0 [] = Outcome.ret aplic tr1 ∧
      writes_to ((aplic.aplic_base + 0x0000) % 2 ^ 64) tr1 = [0x00000104]) :=
  ⟨init_writes_domaincfg_once Backend.direct virt zero_aplic 0xd000000 [] (by decide)
     (Or.inr ⟨Or.inr rfl, by decide⟩),
   init_writes_domaincfg_once Backend.msi virt_dt zero_aplic 0 [] (by decide) (Or.inl rfl)⟩

/-- C13: in direct mode, for every hart position, `aplic_init_per_hart` returns after
exactly two events, both writes, in this order: 1 to idelivery at
`aplic_base + 0x4000 + h*32 + 0x00`, then 0 to ithreshold at
`aplic_base + 0x4000 + h*32 + 0x08`; in MSI mode `aplic_init_per_hart` returns without
any event. -/
theorem init_per_hart_writes (P : Platform) (aplic : aplic_data) (tr : List Event) :
    direct.aplic_init_per_hart P aplic tr =
      Outcome.ret ()
        (tr ++ [Event.write32
                  ((aplic.aplic_base + 0x4000 + P.get_core_pos * 32 + 0x00) % 2 ^ 64) 1,
                Event.write32
                  ((aplic.aplic_base + 0x4000 + P.get_core_pos * 32 + 0x08) % 2 ^ 64) 0]) ∧
    msi.aplic_init_per_hart tr = Outcome.ret () tr := by
  refine ⟨?_, rfl⟩
  have h0 : u64 (direct.aplic_get_idc_base P aplic + APLIC_IDC_IDELIVERY) =
      (aplic.aplic_base + 0x4000 + P.get_core_pos * 32 + 0x00) % 2 ^ 64 := by
    simp only [direct.aplic_get_idc_base, u64, APLIC_IDC_BASE, APLIC_IDC_SIZE,
      APLIC_IDC_IDELIVERY]
    omega
  have h8 : u64 (direct.aplic_get_idc_base P aplic + APLIC_IDC_ITHRESHOLD) =
      (aplic.aplic_base + 0x4000 + P.get_core_pos * 32 + 0x08) % 2 ^ 64 := by
    simp only [direct.aplic_get_idc_base, u64, APLIC_IDC_BASE, APLIC_IDC_SIZE,
      APLIC_IDC_ITHRESHOLD]
    omega
  simp only [direct.aplic_init_per_hart, bind_run, io_write32_run, h0, h8]
  simp [u32, APLIC_ENABLE_IDELIVERY, APLIC_ENABLE_ITHRESHOLD]

/-- C19: in both back-ends, for a source `1 ≤ s ≤ num_source` and a type value outside
the trigger-type enumeration, `add(s, type, prio)` panics, and the only event before the
panic is the write of `s` to clrienum: nothing is written to `sourcecfg[s]`, setipnum or
`target[s]`. -/
theorem add_bad_type_panics (b : Backend) (P : Platform) (aplic : aplic_data)
    (s t prio : Nat) (tr : List Event) (h1 : 1 ≤ s) (hs : s ≤ aplic.num_source)
    (hn : aplic.num_source < 2 ^ 32) (ht : ¬ P.is_trigger_type t) :
    (b.ops P).add aplic s t prio tr =
      Outcome.panic (tr ++ [Event.write32 ((aplic.aplic_base + 0x1FDC) % 2 ^ 64) s]) := by
  have hs0 : ¬ (s = 0 ∨ s > aplic.num_source) := by omega
  have hu : u32 s = s := u32_of_lt (by omega)
  have hbad : ∀ tr1, aplic_set_source_mode P aplic s t tr1 =
      Outcome.ret TEE_Result.TEE_ERROR_BAD_PARAMETERS tr1 := by
    intro tr1
    simp [aplic_set_source_mode, source_mode_of_invalid P t ht, pure_run]
  cases b <;>
    simp [Backend.ops, direct.aplic_ops, msi.aplic_ops, direct.aplic_op_add, msi.aplic_op_add,
      aplic_disable_interrupt, bind_run, pure_run, panic_run, io_write32_run, hs0, hu, hbad,
      TEE_Result.failed, u64, APLIC_CLRIENUM]

theorem add_bad_type_panics_witness :
    (Backend.direct.ops virt).add virt_aplic 5 99 1 [] =
      Outcome.panic [Event.write32 0xd001fdc 5] ∧
    (Backend.msi.ops virt).add virt_aplic 5 99 1 [] =
      Outcome.panic [Event.write32 0xd001fdc 5] :=
  ⟨add_bad_type_panics Backend.direct virt virt_aplic 5 99 1 [] (by decide) (by decide)
     (by decide) (by decide),
   add_bad_type_panics Backend.msi virt virt_aplic 5 99 1 [] (by decide) (by decide)
     (by decide) (by decide)⟩

theorem handler_calls_it_handle (P : Platform) (aplic : aplic_data) (tr : List Event) :
    handler_calls (direct.aplic_it_handle P aplic tr).trace =
      handler_calls tr ++
        (if u32 (P.bus tr (u64 (aplic.aplic_base + APLIC_IDC_CLAIMI))) >>> 16 ≤
            aplic.num_source
         then [u32 (P.bus tr (u64 (aplic.aplic_base + APLIC_IDC_CLAIMI))) >>> 16] else []) := by
  rw [it_handle_run]
  simp only [Outcome.trace, handler_calls_append, APLIC_IDC_TOPI_ID_SHIFT]
  split <;> simp [handler_calls]

theorem iprio_field (p : Nat) :
    u32 ((p &&& APLIC_TARGET_IPRIO_MASK) <<< APLIC_TARGET_IPRIO_SHIFT) = p % 256 := by
  have hm : p &&& APLIC_TARGET_IPRIO_MASK = p % 2 ^ 8 := by
    have := Nat.and_pow_two_sub_one_eq_mod p 8
    simpa [APLIC_TARGET_IPRIO_MASK] using this
  rw [hm]
  simp only [APLIC_TARGET_IPRIO_SHIFT, Nat.shiftLeft_eq, u32]
  omega

theorem or_low_byte (h v : Nat) (hv : v < 256) : (h <<< 18 ||| v) &&& 0xFF = v := by
  have hor : h <<< 18 ||| v = 2 ^ 18 * h + v := by
    rw [Nat.shiftLeft_eq, Nat.mul_comm]
    exact (Nat.mul_add_lt_is_or (by omega) h).symm
  have hmod := Nat.and_pow_two_sub_one_eq_mod (h <<< 18 ||| v) 8
  norm_num at hmod
  rw [hmod, hor]
  omega

/-- C16 (as stated, refuted): in direct mode on hart 3, `add(5, level-high, 0)` and
`add(5, level-high, 256)` both write the word `3 << 18` to `target[5]`, whose bits 7:0
are the reserved priority 0. -/
theorem direct_add_priority_zero_counterexample :
    direct.aplic_op_add (virt_hart 3) virt_aplic 5 4 0 [] =
      Outcome.ret ()
        [Event.write32 0xd001fdc 5, Event.write32 0xd000014 6,
         Event.write32 0xd003014 (3 <<< 18)] ∧
    direct.aplic_op_add (virt_hart 3) virt_aplic 5 4 256 [] =
      Outcome.ret ()
        [Event.write32 0xd001fdc 5, Event.write32 0xd000014 6,
         Event.write32 0xd003014 (3 <<< 18)] ∧
    (3 <<< 18) &&& 0xFF = 0 := by
  refine ⟨rfl, rfl, by decide⟩

/-- C16 (amended): in direct mode, for a source `1 ≤ s ≤ num_source`, a trigger type of
the enumeration, a calling hart below 2^14 and every priority, `add(s, t, prio)` writes
to `target[s]` the word `(hart << 18) | (prio & 0xFF)`: bits 7:0 of the word are the low
eight bits of the priority passed, without clamping. -/
theorem direct_add_priority_masked (P : Platform) (aplic : aplic_data) (s prio : Nat)
    (tc : Nat × Nat) (tr : List Event)
    (hd : P.irq_types_distinct) (hh : P.get_core_pos < 2 ^ 14)
    (h1 : 1 ≤ s) (hs : s ≤ aplic.num_source) (hn : aplic.num_source < 2 ^ 32)
    (ht : tc ∈ spec_trigger_codes P) :
    direct.aplic_op_add P aplic s tc.1 prio tr =
      Outcome.ret ()
        (tr ++ [Event.write32 ((aplic.aplic_base + 0x1FDC) % 2 ^ 64) s,
                Event.write32 ((aplic.aplic_base + 0x0004 + (s - 1) * 4) % 2 ^ 64) tc.2,
                Event.write32 ((aplic.aplic_base + 0x3004 + (s - 1) * 4) % 2 ^ 64)
                  (P.get_core_pos <<< 18 ||| prio % 256)]) ∧
    (P.get_core_pos <<< 18 ||| prio % 256) &&& 0xFF = prio % 256 := by
  have h32 : s < 2 ^ 32 := by omega
  have hs0 : ¬ (s = 0 ∨ s > aplic.num_source) := by omega
  have hu : u32 s = s := u32_of_lt h32
  have haddr := sourcecfg_addr_eq aplic h1 h32
  have hta := target_addr_eq aplic h1 h32
  rw [hu] at hta
  have hword : u32 (u32 ((u32 (u64 P.get_core_pos) &&& APLIC_TARGET_HART_IDX_MASK) <<<
        APLIC_TARGET_HART_IDX_SHIFT) |||
      u32 ((prio &&& APLIC_TARGET_IPRIO_MASK) <<< APLIC_TARGET_IPRIO_SHIFT)) =
      P.get_core_pos <<< 18 ||| prio % 256 := by
    rw [hart_field _ hh, iprio_field]
    exact low_field_or _ _ (by omega) hh
  refine ⟨?_, or_low_byte _ _ (by omega)⟩
  simp only [direct.aplic_op_add, direct.aplic_set_target, aplic_disable_interrupt, bind_run,
    hs0, if_false, pure_run, io_write32_run, hu, set_source_mode_run P aplic s tc _ hd ht,
    TEE_Result.failed, Bool.false_eq_true, haddr, hta, hword]
  simp [u64, APLIC_CLRIENUM]

theorem direct_add_priority_masked_witness :
    direct.aplic_op_add (virt_hart 3) virt_aplic 5 4 0x1ff [] =
      Outcome.ret ()
        [Event.write32 0xd001fdc 5, Event.write32 0xd000014 6,
         Event.write32 0xd003014 (3 <<< 18 ||| 0xff)] ∧
    (3 <<< 18 ||| 0xff) &&& 0xFF = 0xff :=
  direct_add_priority_masked (virt_hart 3) virt_aplic 5 0x1ff (4, 6) [] (by decide)
    (by decide) (by decide) (by decide) (by decide) (by decide)

theorem pack_three (H G E : Nat) (hG : G < 2 ^ 6) (hE : E < 2 ^ 11) :
    H <<< 18 ||| G <<< 12 ||| E = 2 ^ 18 * H + (2 ^ 12 * G + E) := by
  have h1 : G <<< 12 ||| E = 2 ^ 12 * G + E := by
    rw [Nat.shiftLeft_eq, Nat.mul_comm]
    exact (Nat.mul_add_lt_is_or (by omega) G).symm
  rw [Nat.or_assoc, h1, Nat.shiftLeft_eq, Nat.mul_comm]
  exact (Nat.mul_add_lt_is_or (by omega) H).symm

theorem msi_target_val (h g e : Nat) :
    u32 (u32 ((h &&& APLIC_TARGET_HART_IDX_MASK) <<< APLIC_TARGET_HART_IDX_SHIFT) |||
        u32 ((g &&& APLIC_TARGET_GUEST_IDX_MASK) <<< APLIC_TARGET_GUEST_IDX_SHIFT) |||
        u32 ((e &&& APLIC_TARGET_EIID_MASK) <<< APLIC_TARGET_EIID_SHIFT)) =
      2 ^ 18 * (h % 2 ^ 14) + (2 ^ 12 * (g % 2 ^ 6) + e % 2 ^ 11) := by
  have hh : h &&& APLIC_TARGET_HART_IDX_MASK = h % 2 ^ 14 := by
    have := Nat.and_pow_two_sub_one_eq_mod h 14
    simpa [APLIC_TARGET_HART_IDX_MASK] using this
  have hg : g &&& APLIC_TARGET_GUEST_IDX_MASK = g % 2 ^ 6 := by
    have := Nat.and_pow_two_sub_one_eq_mod g 6
    simpa [APLIC_TARGET_GUEST_IDX_MASK] using this
  have he : e &&& APLIC_TARGET_EIID_MASK = e % 2 ^ 11 := by
    have := Nat.and_pow_two_sub_one_eq_mod e 11
    simpa [APLIC_TARGET_EIID_MASK] using this
  have u1 : u32 ((h % 2 ^ 14) <<< 18) = (h % 2 ^ 14) <<< 18 := by
    apply u32_of_lt; rw [Nat.shiftLeft_eq]; omega
  have u2 : u32 ((g % 2 ^ 6) <<< 12) = (g % 2 ^ 6) <<< 12 := by
    apply u32_of_lt; rw [Nat.shiftLeft_eq]; omega
  have u3 : u32 ((e % 2 ^ 11) <<< 0) = e % 2 ^ 11 := by
    apply u32_of_lt; rw [Nat.shiftLeft_eq]; omega
  rw [hh, hg, he]
  simp only [APLIC_TARGET_HART_IDX_SHIFT, APLIC_TARGET_GUEST_IDX_SHIFT,
    APLIC_TARGET_EIID_SHIFT]
  rw [u1, u2, u3, pack_three _ _ _ (by omega) (by omega)]
  apply u32_of_lt
  omega

theorem fields_of_sum (H G E : Nat) (hH : H < 2 ^ 14) (hG : G < 2 ^ 6) (hE : E < 2 ^ 11) :
    ((2 ^ 18 * H + (2 ^ 12 * G + E)) >>> 18) &&& 0x3FFF = H ∧
    ((2 ^ 18 * H + (2 ^ 12 * G + E)) >>> 12) &&& 0x3F = G ∧
    (2 ^ 18 * H + (2 ^ 12 * G + E)) &&& 0x7FF = E ∧
    ((2 ^ 18 * H + (2 ^ 12 * G + E)) >>> 11) &&& 1 = 0 := by
  have a14 := fun x => Nat.and_pow_two_sub_one_eq_mod x 14
  have a6 := fun x => Nat.and_pow_two_sub_one_eq_mod x 6
  have a11 := fun x => Nat.and_pow_two_sub_one_eq_mod x 11
  norm_num at a14 a6 a11
  simp only [Nat.shiftRight_eq_div_pow, a14, a6, a11, Nat.and_one_is_mod]
  omega

/-- C18: the MSI `aplic_set_target` returns after one write, to `target[source]`, of a
32-bit word `w` whose fields hold the inputs truncated to their widths:
`(w >> 18) & 0x3FFF` is the hart index modulo 2^14, `(w >> 12) & 0x3F` the guest index
modulo 2^6, `w & 0x7FF` the EIID modulo 2^11, and bit 11 of `w` is 0; hence for a hart
index below 2^14, a guest index below 2^6 and an EIID below 2^11 the three fields are
the inputs themselves and `w` is `(h << 18) | (g << 12) | e`. -/
theorem msi_target_word_fields (aplic : aplic_data) (s h g e : Nat) (tr : List Event) :
    ∃ w, msi.aplic_set_target aplic s h g e tr =
        Outcome.ret ()
          (tr ++ [Event.write32
            (u64 (aplic.aplic_base + APLIC_TARGET_BASE + u32_sub s 1 * sizeof_uint32_t)) w]) ∧
      w < 2 ^ 32 ∧
      (w >>> 18) &&& 0x3FFF = h % 2 ^ 14 ∧
      (w >>> 12) &&& 0x3F = g % 2 ^ 6 ∧
      w &&& 0x7FF = e % 2 ^ 11 ∧
      (w >>> 11) &&& 1 = 0 ∧
      (h < 2 ^ 14 → g < 2 ^ 6 → e < 2 ^ 11 →
        w = h <<< 18 ||| g <<< 12 ||| e ∧
        (w >>> 18) &&& 0x3FFF = h ∧ (w >>> 12) &&& 0x3F = g ∧ w &&& 0x7FF = e) := by
  refine ⟨2 ^ 18 * (h % 2 ^ 14) + (2 ^ 12 * (g % 2 ^ 6) + e % 2 ^ 11), ?_, ?_, ?_⟩
  · simp only [msi.aplic_set_target, io_write32_run, msi_target_val]
  · omega
  · obtain ⟨f1, f2, f3, f4⟩ := fields_of_sum (h % 2 ^ 14) (g % 2 ^ 6) (e % 2 ^ 11)
      (Nat.mod_lt _ (by norm_num)) (Nat.mod_lt _ (by norm_num)) (Nat.mod_lt _ (by norm_num))
    refine ⟨f1, f2, f3, f4, ?_⟩
    intro hh hg he
    rw [Nat.mod_eq_of_lt hh, Nat.mod_eq_of_lt hg, Nat.mod_eq_of_lt he] at f1 f2 f3 ⊢
    exact ⟨(pack_three h g e hg he).symm, f1, f2, f3⟩

theorem msi_target_word_fields_witness :
    ∃ w, msi.aplic_set_target virt_aplic 7 3 1 2 [] =
        Outcome.ret ()
          [Event.write32
            (u64 (virt_aplic.aplic_base + APLIC_TARGET_BASE + u32_sub 7 1 * sizeof_uint32_t))
            w] ∧
      w < 2 ^ 32 ∧
      (w >>> 18) &&& 0x3FFF = 3 % 2 ^ 14 ∧
      (w >>> 12) &&& 0x3F = 1 % 2 ^ 6 ∧
      w &&& 0x7FF = 2 % 2 ^ 11 ∧
      (w >>> 11) &&& 1 = 0 ∧
      (3 < 2 ^ 14 → 1 < 2 ^ 6 → 2 < 2 ^ 11 →
        w = 3 <<< 18 ||| 1 <<< 12 ||| 2 ∧
        (w >>> 18) &&& 0x3FFF = 3 ∧ (w >>> 12) &&& 0x3F = 1 ∧ w &&& 0x7FF = 2) :=
  msi_target_word_fields virt_aplic 7 3 1 2 []

theorem mmode_scan_found_iff (P : Platform) (val : FdtProp) (n : Nat) :
    ∀ (fuel j : Nat), n - j ≤ fuel →
      ((mmode_scan P val (2 * n) fuel (2 * j)).1 = true ↔
        ∃ k, j ≤ k ∧ k < n ∧ val.cell (2 * k + 1) = P.IRQ_M_EXT) := by
  intro fuel
  induction fuel with
  | zero =>
    intro j hj
    simp only [mmode_scan]
    constructor
    · intro h; exact absurd h (by simp)
    · rintro ⟨k, h1, h2, _⟩; omega
  | succ fuel ih =>
    intro j hj
    unfold mmode_scan
    by_cases hlt : 2 * j < 2 * n
    · by_cases hc : val.cell (2 * j + 1) = P.IRQ_M_EXT
      · simp only [hlt, hc, if_true]
        constructor
        · intro _; exact ⟨j, le_refl _, by omega, hc⟩
        · intro _; trivial
      · simp only [hlt, hc, if_true, if_false]
        have e2 : 2 * j + 2 = 2 * (j + 1) := by ring
        rw [e2, ih (j + 1) (by omega)]
        constructor
        · rintro ⟨k, h1, h2, h3⟩; exact ⟨k, by omega, h2, h3⟩
        · rintro ⟨k, h1, h2, h3⟩
          have hkj : k ≠ j := by
            intro h; subst h; exact hc h3
          exact ⟨k, by omega, h2, h3⟩
    · simp only [hlt, if_false]
      constructor
      · intro h; exact absurd h (by simp)
      · rintro ⟨k, h1, h2, _⟩; omega

theorem parse_interrupts_extended (P : Platform) (fdt : Fdt) (nodeoff : Int)
    (node : FdtNode) (aplic : aplic_data) (val : FdtProp)
    (hoff : 0 ≤ nodeoff)
    (hreg : 0 ≤ node.reg_rc ∧ node.reg_addr ≠ 0 ∧ node.reg_size ≠ 0)
    (hva : P.core_mmu_get_va node.reg_addr node.reg_size ≠ 0)
    (hie : node.interrupts_extended = some val) (hl4 : val.len > 4) :
    (fdt_parse_aplic_node P fdt nodeoff (some node) aplic).1 = TEE_Result.TEE_SUCCESS ∧
    (fdt_parse_aplic_node P fdt nodeoff (some node) aplic).2.targets_mmode =
      (mmode_scan P val (val.len / 4) (val.len / 4) 0).1 ∧
    (fdt_parse_aplic_node P fdt nodeoff (some node) aplic).2.num_idc =
      u32 (val.len / 4 / 2) := by
  have hoff' : ¬ nodeoff < 0 := by omega
  have hreg' : ¬ (node.reg_rc < 0 ∨ node.reg_addr = 0 ∨ node.reg_size = 0) := by
    obtain ⟨h1, h2, h3⟩ := hreg
    simp only [not_or]
    exact ⟨by omega, h2, h3⟩
  simp only [fdt_parse_aplic_node, hoff', if_false, hreg', hva, hie, hl4, if_true]
  cases hs : (mmode_scan P val (val.len / 4) (val.len / 4) 0).1
  · rcases hns : node.num_sources with _ | v
    · simp
    · by_cases hv : v.len > 0 <;> simp [hv]
  · simp

/-- C17: for an APLIC node whose `reg` resolves and maps and whose "interrupts-extended"
property consists of `n ≥ 1` complete (parent-phandle, interrupt-id) pairs,
`fdt_parse_aplic_node` succeeds, leaves `targets_mmode` true if and only if the
interrupt-id of at least one pair is `IRQ_M_EXT`, and leaves `num_idc` equal to `n`. -/
theorem parse_pairs_mmode_and_idc (P : Platform) (fdt : Fdt) (nodeoff : Int)
    (node : FdtNode) (aplic : aplic_data) (val : FdtProp) (n : Nat)
    (hoff : 0 ≤ nodeoff)
    (hreg : 0 ≤ node.reg_rc ∧ node.reg_addr ≠ 0 ∧ node.reg_size ≠ 0)
    (hva : P.core_mmu_get_va node.reg_addr node.reg_size ≠ 0)
    (hie : node.interrupts_extended = some val) (hlen : val.len = 8 * n)
    (hn : 1 ≤ n) (hn32 : n < 2 ^ 32) :
    (fdt_parse_aplic_node P fdt nodeoff (some node) aplic).1 = TEE_Result.TEE_SUCCESS ∧
    ((fdt_parse_aplic_node P fdt nodeoff (some node) aplic).2.targets_mmode = true ↔
      ∃ k, k < n ∧ val.cell (2 * k + 1) = P.IRQ_M_EXT) ∧
    (fdt_parse_aplic_node P fdt nodeoff (some node) aplic).2.num_idc = n := by
  have hcells : val.len / 4 = 2 * n := by omega
  obtain ⟨h1, h2, h3⟩ :=
    parse_interrupts_extended P fdt nodeoff node aplic val hoff hreg hva hie (by omega)
  have hscan := mmode_scan_found_iff P val n (2 * n) 0 (by omega)
  simp only [Nat.mul_zero] at hscan
  refine ⟨h1, ?_, ?_⟩
  · rw [h2, hcells, hscan]
    constructor
    · rintro ⟨k, _, hk, hc⟩; exact ⟨k, hk, hc⟩
    · rintro ⟨k, hk, hc⟩; exact ⟨k, Nat.zero_le _, hk, hc⟩
  · rw [h3, hcells, Nat.mul_div_cancel_left n (by norm_num)]
    exact u32_of_lt hn32

theorem parse_pairs_mmode_and_idc_witness :
    (fdt_parse_aplic_node virt two_node_fdt 0x100 (some two_pair_node) zero_aplic).1 =
      TEE_Result.TEE_SUCCESS ∧
    ((fdt_parse_aplic_node virt two_node_fdt 0x100 (some two_pair_node)
        zero_aplic).2.targets_mmode = true ↔
      ∃ k, k < 2 ∧ (if 2 * k + 1 = 3 then 11 else 9) = virt.IRQ_M_EXT) ∧
    (fdt_parse_aplic_node virt two_node_fdt 0x100 (some two_pair_node) zero_aplic).2.num_idc
      = 2 :=
  parse_pairs_mmode_and_idc virt two_node_fdt 0x100 two_pair_node zero_aplic
    { len := 16, cell := fun i => if i = 3 then 11 else 9 } 2 (by decide)
    ⟨by decide, by decide, by decide⟩ (by decide) rfl rfl (by decide) (by decide)

theorem mmode_scan_reads_last (P : Platform) (val : FdtProp) (k : Nat) :
    ∀ (fuel j : Nat), j ≤ k → k - j + 1 ≤ fuel →
      (∀ j', j ≤ j' → j' < k → val.cell (2 * j' + 1) ≠ P.IRQ_M_EXT) →
      (2 * k + 1) ∈ (mmode_scan P val (2 * k + 1) fuel (2 * j)).2 := by
  intro fuel
  induction fuel with
  | zero => intro j _ h; omega
  | succ fuel ih =>
    intro j hjk hf hne
    unfold mmode_scan
    have hlt : 2 * j < 2 * k + 1 := by omega
    by_cases hc : val.cell (2 * j + 1) = P.IRQ_M_EXT
    · have hjk' : j = k := by
        by_contra hne'
        exact hne j (le_refl _) (by omega) hc
      subst hjk'
      simp [hlt, hc]
    · simp only [hlt, hc, if_true, if_false]
      by_cases hjk' : j = k
      · subst hjk'
        simp
      · have e2 : 2 * j + 2 = 2 * (j + 1) := by ring
        rw [e2]
        exact List.mem_cons_of_mem _
          (ih (j + 1) (by omega) (by omega) (fun j' h1 h2 => hne j' (by omega) h2))

theorem mmode_scan_index_bound (P : Platform) (val : FdtProp) (len : Nat) :
    ∀ (fuel i x : Nat), x ∈ (mmode_scan P val len fuel i).2 →
      x ≤ len ∧ i < x ∧ (x - i) % 2 = 1 := by
  intro fuel
  induction fuel with
  | zero => intro i x h; simp [mmode_scan] at h
  | succ fuel ih =>
    intro i x h
    unfold mmode_scan at h
    by_cases hlt : i < len
    · by_cases hc : val.cell (i + 1) = P.IRQ_M_EXT
      · simp only [hlt, hc, if_true, List.mem_singleton] at h
        omega
      · simp only [hlt, hc, if_true, if_false, List.mem_cons] at h
        rcases h with h | h
        · omega
        · have := ih (i + 2) x h
          omega
    · simp [hlt] at h

/-- C20: the scan of `fdt_parse_aplic_node` reads cell `i + 1` for every even `i` below
the cell count, so with an odd number of cells it reads one cell past the end. The node
`odd_cells_node`, whose "interrupts-extended" has 12 bytes (3 cells), is accepted by the
parser, and the scan reads the cell indices 1 and 3, the latter not below 3. In general,
with `2k+1` cells and no `IRQ_M_EXT` among the interrupt-ids before it, index `2k+1` is
read; with an even number of cells every index read is below the cell count. -/
theorem mmode_scan_reads_past_odd_count :
    (fdt_parse_aplic_node virt two_node_fdt 0x100 (some odd_cells_node) zero_aplic).1 =
      TEE_Result.TEE_SUCCESS ∧
    (mmode_scan virt { len := 12, cell := fun _ => 9 } (12 / 4) (12 / 4) 0).2 = [1, 3] ∧
    ¬ (3 < 12 / 4) ∧
    (∀ (P : Platform) (val : FdtProp) (k : Nat),
      (∀ j, j < k → val.cell (2 * j + 1) ≠ P.IRQ_M_EXT) →
      (2 * k + 1) ∈ (mmode_scan P val (2 * k + 1) (2 * k + 1) 0).2) ∧
    (∀ (P : Platform) (val : FdtProp) (n x : Nat),
      x ∈ (mmode_scan P val (2 * n) (2 * n) 0).2 → x < 2 * n) := by
  refine ⟨rfl, rfl, by decide, ?_, ?_⟩
  · intro P val k h
    have := mmode_scan_reads_last P val k (2 * k + 1) 0 (Nat.zero_le _) (by omega)
      (fun j' _ h2 => h j' h2)
    simpa using this
  · intro P val n x h
    have := mmode_scan_index_bound P val (2 * n) (2 * n) 0 x h
    omega

theorem failed_eq_false (r : TEE_Result) : r.failed = false ↔ r = TEE_Result.TEE_SUCCESS := by
  cases r <;> simp [TEE_Result.failed]

theorem parse_node_eq (P : Platform) (fdt : Fdt) (n : FdtNode) (aplic : aplic_data) :
    fdt_parse_aplic_node P fdt (n.offset : Int) (some n) aplic = node_descriptor P fdt n := by
  have h : ¬ ((n.offset : Int) < 0) := by omega
  simp only [node_descriptor, fdt_parse_aplic_node, h, if_false]

theorem probe_after_loop_run (aplic : aplic_data) (tr : List Event) :
    probe_after_loop aplic tr =
      Outcome.ret (TEE_Result.TEE_ERROR_ITEM_NOT_FOUND, aplic)
        (tr ++ if aplic.targets_mmode then [Event.free_aplic] else []) := by
  unfold probe_after_loop
  by_cases h : aplic.targets_mmode = true
  · simp [h, bind_run, pure_run, emit]
  · simp [h, bind_run, pure_run]

theorem probe_past_last_run (P : Platform) (fdt : Fdt) (aplic : aplic_data)
    (tr : List Event) :
    probe_past_last P fdt aplic tr =
      if P.FDT_ERR_NOTFOUND = 0 then probe_after_loop aplic tr
      else Outcome.ret (TEE_Result.TEE_ERROR_GENERIC, aplic)
        (tr ++ [Event.emsg_parse_failed]) := by
  unfold probe_past_last
  by_cases h0 : P.FDT_ERR_NOTFOUND = 0
  · simp [h0]
  · have hne : ¬ (-(P.FDT_ERR_NOTFOUND : Int) = (P.FDT_ERR_NOTFOUND : Int)) := by omega
    have hneg : -(P.FDT_ERR_NOTFOUND : Int) < 0 := by omega
    simp [h0, hne, fdt_parse_aplic_node, hneg, TEE_Result.failed, bind_run, pure_run, emit]

theorem probe_loop_step (P : Platform) (fdt : Fdt) (n : FdtNode) (rest : List FdtNode)
    (aplic : aplic_data) (tr : List Event) :
    probe_loop P fdt n rest aplic tr =
      if (n.offset : Int) = (P.FDT_ERR_NOTFOUND : Int) then probe_after_loop aplic tr
      else if (node_descriptor P fdt n).1.failed then
        Outcome.ret (node_descriptor P fdt n) (tr ++ [Event.emsg_parse_failed])
      else if !(node_descriptor P fdt n).2.targets_mmode then
        Outcome.ret (TEE_Result.TEE_SUCCESS, (node_descriptor P fdt n).2) tr
      else match rest with
        | [] => probe_past_last P fdt (node_descriptor P fdt n).2 tr
        | m :: rest1 => probe_loop P fdt m rest1 (node_descriptor P fdt n).2 tr := by
  cases rest with
  | nil =>
    rw [probe_loop]
    simp only [parse_node_eq]
    split
    · rfl
    · split
      · rfl
      · split <;> rfl
  | cons m rest1 =>
    rw [probe_loop]
    simp only [parse_node_eq]
    split
    · rfl
    · split
      · rfl
      · split <;> rfl

theorem probe_past_last_not_success (P : Platform) (fdt : Fdt) (aplic d : aplic_data)
    (tr tr1 : List Event) :
    probe_past_last P fdt aplic tr ≠ Outcome.ret (TEE_Result.TEE_SUCCESS, d) tr1 := by
  rw [probe_past_last_run]
  split
  · rw [probe_after_loop_run]
    simp
  · simp

theorem probe_loop_success (P : Platform) (fdt : Fdt) (rest : List FdtNode) :
    ∀ (n : FdtNode) (a : aplic_data) (tr : List Event) (d : aplic_data) (tr1 : List Event),
      probe_loop P fdt n rest a tr = Outcome.ret (TEE_Result.TEE_SUCCESS, d) tr1 →
      tr1 = tr ∧ d.targets_mmode = false ∧
      (∃ m, m ∈ n :: rest ∧ node_descriptor P fdt m = (TEE_Result.TEE_SUCCESS, d)) ∧
      ∀ (a2 : aplic_data) (tr2 : List Event),
        probe_loop P fdt n rest a2 tr2 = Outcome.ret (TEE_Result.TEE_SUCCESS, d) tr2 := by
  induction rest with
  | nil =>
    intro n a tr d tr1 h
    rw [probe_loop_step] at h
    by_cases h1 : (n.offset : Int) = (P.FDT_ERR_NOTFOUND : Int)
    · rw [if_pos h1, probe_after_loop_run] at h
      simp at h
    · rw [if_neg h1] at h
      by_cases h2 : (node_descriptor P fdt n).1.failed = true
      · rw [if_pos h2] at h
        simp only [Outcome.ret.injEq] at h
        rw [h.1] at h2
        simp [TEE_Result.failed] at h2
      · rw [if_neg h2] at h
        by_cases h3 : (!(node_descriptor P fdt n).2.targets_mmode) = true
        · rw [if_pos h3] at h
          simp only [Outcome.ret.injEq, Prod.mk.injEq, true_and] at h
          obtain ⟨hd, htr⟩ := h
          have hs : (node_descriptor P fdt n).1 = TEE_Result.TEE_SUCCESS :=
            (failed_eq_false _).mp (by simpa using h2)
          have hnd : node_descriptor P fdt n = (TEE_Result.TEE_SUCCESS, d) := by
            rw [← hd, ← hs]
          refine ⟨htr.symm, ?_, ⟨n, List.mem_cons_self _ _, hnd⟩, ?_⟩
          · rw [← hd]; simpa using h3
          · intro a2 tr2
            rw [probe_loop_step, if_neg h1, if_neg h2, if_pos h3, hd]
        · rw [if_neg h3] at h
          exact absurd h (probe_past_last_not_success P fdt _ d tr tr1)
  | cons m rest1 ih =>
    intro n a tr d tr1 h
    rw [probe_loop_step] at h
    by_cases h1 : (n.offset : Int) = (P.FDT_ERR_NOTFOUND : Int)
    · rw [if_pos h1, probe_after_loop_run] at h
      simp at h
    · rw [if_neg h1] at h
      by_cases h2 : (node_descriptor P fdt n).1.failed = true
      · rw [if_pos h2] at h
        simp only [Outcome.ret.injEq] at h
        rw [h.1] at h2
        simp [TEE_Result.failed] at h2
      · rw [if_neg h2] at h
        by_cases h3 : (!(node_descriptor P fdt n).2.targets_mmode) = true
        · rw [if_pos h3] at h
          simp only [Outcome.ret.injEq, Prod.mk.injEq, true_and] at h
          obtain ⟨hd, htr⟩ := h
          have hs : (node_descriptor P fdt n).1 = TEE_Result.TEE_SUCCESS :=
            (failed_eq_false _).mp (by simpa using h2)
          have hnd : node_descriptor P fdt n = (TEE_Result.TEE_SUCCESS, d) := by
            rw [← hd, ← hs]
          refine ⟨htr.symm, ?_, ⟨n, List.mem_cons_self _ _, hnd⟩, ?_⟩
          · rw [← hd]; simpa using h3
          · intro a2 tr2
            rw [probe_loop_step, if_neg h1, if_neg h2, if_pos h3, hd]
        · rw [if_neg h3] at h
          obtain ⟨e1, e2, ⟨x, hx, hxd⟩, e4⟩ := ih m _ tr d tr1 h
          refine ⟨e1, e2, ⟨x, List.mem_cons_of_mem _ hx, hxd⟩, ?_⟩
          intro a2 tr2
          rw [probe_loop_step, if_neg h1, if_neg h2, if_neg h3]
          exact e4 _ tr2

theorem init_from_device_tree_success (P : Platform) (a : aplic_data) (tr : List Event)
    (d : aplic_data) (tr1 : List Event)
    (h : aplic_init_from_device_tree P a tr = Outcome.ret (TEE_Result.TEE_SUCCESS, d) tr1) :
    tr1 = tr ∧ d.targets_mmode = false ∧
    (∃ fdt m, P.get_dt = some fdt ∧ m ∈ fdt.aplic_nodes ∧
      node_descriptor P fdt m = (TEE_Result.TEE_SUCCESS, d)) ∧
    ∀ (a2 : aplic_data) (tr2 : List Event),
      aplic_init_from_device_tree P a2 tr2 = Outcome.ret (TEE_Result.TEE_SUCCESS, d) tr2 := by
  unfold aplic_init_from_device_tree at h ⊢
  rcases hdt : P.get_dt with _ | fdt
  · rw [hdt] at h
    simp [bind_run, pure_run, emit] at h
  · rw [hdt] at h
    dsimp only at h ⊢
    rcases hn : fdt.aplic_nodes with _ | ⟨n, rest⟩
    · rw [hn] at h
      exact absurd h (probe_past_last_not_success P fdt _ d tr tr1)
    · rw [hn] at h
      obtain ⟨e1, e2, ⟨x, hx, hxd⟩, e4⟩ := probe_loop_success P fdt rest n a tr d tr1 h
      exact ⟨e1, e2, ⟨fdt, x, rfl, by rw [hn]; exact hx, hxd⟩, e4⟩

theorem parse_msi_parent_num_idc (P : Platform) (fdt : Fdt) (node : FdtNode)
    (aplic : aplic_data) :
    (parse_msi_parent P fdt node aplic).2.num_idc = aplic.num_idc := by
  unfold parse_msi_parent
  split
  · rfl
  · split
    · dsimp only
      split
      · rfl
      · split <;> rfl
    · rfl

theorem node_descriptor_num_idc (P : Platform) (fdt : Fdt) (n : FdtNode) (d : aplic_data)
    (h : node_descriptor P fdt n = (TEE_Result.TEE_SUCCESS, d)) :
    d.num_idc = node_idc_count n := by
  have hd : d = (node_descriptor P fdt n).2 := by rw [h]
  have hs : (node_descriptor P fdt n).1 = TEE_Result.TEE_SUCCESS := by rw [h]
  rw [hd]
  unfold node_descriptor fdt_parse_aplic_node at hs ⊢
  unfold node_idc_count
  have hoff : ¬ ((n.offset : Int) < 0) := by omega
  simp only [hoff, if_false] at hs ⊢
  by_cases hreg : n.reg_rc < 0 ∨ n.reg_addr = 0 ∨ n.reg_size = 0
  · simp [hreg] at hs
  · simp only [hreg, if_false] at hs ⊢
    by_cases hva : P.core_mmu_get_va n.reg_addr n.reg_size = 0
    · simp [hva] at hs
    · simp only [hva, if_false] at hs ⊢
      rcases hie : n.interrupts_extended with _ | val
      · simp only [parse_msi_parent_num_idc]
        rcases hns : n.num_sources with _ | v
        · rfl
        · dsimp only
          split <;> rfl
      · dsimp only
        by_cases hl : val.len > 4
        · simp only [hl, if_true]
        · simp only [hl, if_false, parse_msi_parent_num_idc]
          rcases hns : n.num_sources with _ | v
          · rfl
          · dsimp only
            split <;> rfl

/-- C12: when `aplic_init_from_device_tree` succeeds from one descriptor, it succeeds
from every other descriptor (and event history) with the same resulting descriptor, all
fields included; in particular probing again, starting from the descriptor the first
probe left, yields that descriptor again. -/
theorem probe_idempotent (P : Platform) (a1 a2 d : aplic_data) (tr1 tr1a tr2 : List Event)
    (h : aplic_init_from_device_tree P a1 tr1 =
      Outcome.ret (TEE_Result.TEE_SUCCESS, d) tr1a) :
    aplic_init_from_device_tree P a2 tr2 = Outcome.ret (TEE_Result.TEE_SUCCESS, d) tr2 ∧
    aplic_init_from_device_tree P d tr1a = Outcome.ret (TEE_Result.TEE_SUCCESS, d) tr1a := by
  obtain ⟨_, _, _, hall⟩ := init_from_device_tree_success P a1 tr1 d tr1a h
  exact ⟨hall a2 tr2, hall d tr1a⟩

theorem probe_idempotent_witness :
    aplic_init_from_device_tree virt_dt virt_aplic [Event.interrupt_main_init] =
      Outcome.ret (TEE_Result.TEE_SUCCESS, smode_node_aplic) [Event.interrupt_main_init] ∧
    aplic_init_from_device_tree virt_dt smode_node_aplic [] =
      Outcome.ret (TEE_Result.TEE_SUCCESS, smode_node_aplic) [] :=
  probe_idempotent virt_dt zero_aplic virt_aplic smode_node_aplic [] []
    [Event.interrupt_main_init] rfl

/-- C14 (as stated, refuted): on the device tree `two_node_fdt` the probe succeeds, and
the MSI `aplic_init` returns a descriptor whose `num_idc` is 1, not 0: the selected node
has an "interrupts-extended" property of two cells. -/
theorem msi_init_num_idc_counterexample :
    aplic_init_from_device_tree virt_dt zero_aplic [] =
      Outcome.ret (TEE_Result.TEE_SUCCESS, smode_node_aplic) [] ∧
    msi.aplic_init virt_dt zero_aplic 0 [] =
      Outcome.ret { smode_node_aplic with chip := { ops := some OpsRef.msi_aplic_ops } }
        [Event.write32 0xd000000 0x104] ∧
    smode_node_aplic.num_idc = 1 := by
  refine ⟨rfl, rfl, rfl⟩

/-- C14 (amended): in MSI mode `num_idc` is zero after primary initialization with the
compile-time base; with the device-tree probe, whenever the probe succeeds, `num_idc` is
the IDC count the parser derives from the selected node: zero when that node has no
"interrupts-extended" property of more than 4 bytes, and otherwise half the number of
32-bit cells of that property. -/
theorem msi_init_num_idc (P : Platform) (a : aplic_data) (pa : Nat) (tr : List Event) :
    (P.CFG_DT = false →
      ((P.NDEBUG = true ∨ P.cpu_mmu_enabled = true) ∧
        P.core_mmu_get_va pa P.APLIC_SIZE ≠ 0) →
      ∃ d tr1, msi.aplic_init P a pa tr = Outcome.ret d tr1 ∧ d.num_idc = 0) ∧
    (P.CFG_DT = true →
      ∀ d0 tr0, aplic_init_from_device_tree P a tr =
          Outcome.ret (TEE_Result.TEE_SUCCESS, d0) tr0 →
        ∃ fdt n d tr1, P.get_dt = some fdt ∧ n ∈ fdt.aplic_nodes ∧
          node_descriptor P fdt n = (TEE_Result.TEE_SUCCESS, d0) ∧
          msi.aplic_init P a pa tr = Outcome.ret d tr1 ∧
          d.num_idc = node_idc_count n) := by
  constructor
  · intro hdt hok
    simp only [msi.aplic_init, hdt, Bool.false_eq_true, if_false, bind_run, pure_run,
      msi_init_base_addr_run P a pa tr hok, io_write32_run]
    exact ⟨_, _, rfl, rfl⟩
  · intro hdt d0 tr0 h
    obtain ⟨_, _, ⟨fdt, n, hget, hmem, hnd⟩, _⟩ := init_from_device_tree_success P a tr d0 tr0 h
    have hidc := node_descriptor_num_idc P fdt n d0 hnd
    simp only [msi.aplic_init, hdt, if_true, bind_run, pure_run, h, io_write32_run]
    exact ⟨fdt, n, _, _, hget, hmem, hnd, rfl, hidc⟩

theorem msi_init_num_idc_witness :
    (∃ d tr1, msi.aplic_init virt zero_aplic 0xd000000 [] = Outcome.ret d tr1 ∧
      d.num_idc = 0) ∧
    (∃ fdt n d tr1, virt_dt.get_dt = some fdt ∧ n ∈ fdt.aplic_nodes ∧
      node_descriptor virt_dt fdt n = (TEE_Result.TEE_SUCCESS, smode_node_aplic) ∧
      msi.aplic_init virt_dt zero_aplic 0 [] = Outcome.ret d tr1 ∧
      d.num_idc = node_idc_count n) :=
  ⟨(msi_init_num_idc virt zero_aplic 0xd000000 []).1 rfl ⟨Or.inr rfl, by decide⟩,
   (msi_init_num_idc virt_dt zero_aplic 0 []).2 rfl smode_node_aplic [] rfl⟩

theorem probe_loop_spec (P : Platform) (fdt : Fdt) (hE : 0 < P.FDT_ERR_NOTFOUND)
    (rest : List FdtNode) :
    ∀ (n : FdtNode) (a : aplic_data) (tr : List Event),
      (∀ m, m ∈ n :: rest → (m.offset : Int) ≠ (P.FDT_ERR_NOTFOUND : Int) ∧
        (node_descriptor P fdt m).1 = TEE_Result.TEE_SUCCESS) →
      (∀ d, spec_probe P fdt (n :: rest) = some d →
        probe_loop P fdt n rest a tr = Outcome.ret (TEE_Result.TEE_SUCCESS, d) tr) ∧
      (spec_probe P fdt (n :: rest) = none →
        ∃ d1, probe_loop P fdt n rest a tr =
          Outcome.ret (TEE_Result.TEE_ERROR_GENERIC, d1) (tr ++ [Event.emsg_parse_failed])) := by
  induction rest with
  | nil =>
    intro n a tr hall
    obtain ⟨h1, hs⟩ := hall n (List.mem_cons_self _ _)
    have h2 : ¬ (node_descriptor P fdt n).1.failed = true := by
      rw [hs]; simp [TEE_Result.failed]
    rw [probe_loop_step, if_neg h1, if_neg h2]
    by_cases hm : (node_descriptor P fdt n).2.targets_mmode = true
    · have h3 : ¬ (!(node_descriptor P fdt n).2.targets_mmode) = true := by simp [hm]
      have h0 : P.FDT_ERR_NOTFOUND ≠ 0 := by omega
      rw [if_neg h3]
      simp only [spec_probe, hm, if_true, probe_past_last_run, h0, if_false]
      exact ⟨fun d hd => by simp at hd, fun _ => ⟨_, rfl⟩⟩
    · have h3 : (!(node_descriptor P fdt n).2.targets_mmode) = true := by simpa using hm
      rw [if_pos h3]
      simp only [spec_probe, hm, if_false, Bool.false_eq_true]
      exact ⟨fun d hd => by simp at hd; rw [hd], fun h => by simp at h⟩
  | cons m rest1 ih =>
    intro n a tr hall
    obtain ⟨h1, hs⟩ := hall n (List.mem_cons_self _ _)
    have h2 : ¬ (node_descriptor P fdt n).1.failed = true := by
      rw [hs]; simp [TEE_Result.failed]
    rw [probe_loop_step, if_neg h1, if_neg h2]
    by_cases hm : (node_descriptor P fdt n).2.targets_mmode = true
    · have h3 : ¬ (!(node_descriptor P fdt n).2.targets_mmode) = true := by simp [hm]
      rw [if_neg h3]
      have hsp : spec_probe P fdt (n :: m :: rest1) = spec_probe P fdt (m :: rest1) := by
        rw [spec_probe, if_pos hm]
      rw [hsp]
      exact ih m _ tr (fun x hx => hall x (List.mem_cons_of_mem _ hx))
    · have h3 : (!(node_descriptor P fdt n).2.targets_mmode) = true := by simpa using hm
      rw [if_pos h3]
      have hsp : spec_probe P fdt (n :: m :: rest1) = some (node_descriptor P fdt n).2 := by
        rw [spec_probe, if_neg hm]
      rw [hsp]
      exact ⟨fun d hd => by simp at hd; rw [hd], fun h => by simp at h⟩

/-- C11: with the not-found value `-FDT_ERR_NOTFOUND` of libfdt negative, on a device
tree whose "riscv,aplic" nodes all parse successfully `aplic_init_from_device_tree`
returns success with the descriptor of the first node that does not target machine mode;
but when no node exists or every node targets machine mode it returns
`TEE_ERROR_GENERIC` after the diagnostic of a failed parse, not item-not-found: the loop
test compares `node` with `FDT_ERR_NOTFOUND` instead of `-FDT_ERR_NOTFOUND`, so the loop
body runs once more with the negative offset. Shown in general and on three sample
trees (no node, one M-mode node, an M-mode node followed by an S-mode node). -/
theorem probe_without_suitable_node_is_generic :
    (∀ (P : Platform) (fdt : Fdt) (a : aplic_data) (tr : List Event),
      0 < P.FDT_ERR_NOTFOUND → P.get_dt = some fdt →
      (∀ m, m ∈ fdt.aplic_nodes → (m.offset : Int) ≠ (P.FDT_ERR_NOTFOUND : Int) ∧
        (node_descriptor P fdt m).1 = TEE_Result.TEE_SUCCESS) →
      (∀ d, spec_probe P fdt fdt.aplic_nodes = some d →
        aplic_init_from_device_tree P a tr =
          Outcome.ret (TEE_Result.TEE_SUCCESS, d) tr) ∧
      (spec_probe P fdt fdt.aplic_nodes = none →
        ∃ d1, aplic_init_from_device_tree P a tr =
          Outcome.ret (TEE_Result.TEE_ERROR_GENERIC, d1)
            (tr ++ [Event.emsg_parse_failed]))) ∧
    aplic_init_from_device_tree (virt_with_dt no_aplic_fdt) zero_aplic [] =
      Outcome.ret (TEE_Result.TEE_ERROR_GENERIC, zero_aplic) [Event.emsg_parse_failed] ∧
    aplic_init_from_device_tree (virt_with_dt mmode_only_fdt) zero_aplic [] =
      Outcome.ret (TEE_Result.TEE_ERROR_GENERIC, mmode_node_aplic)
        [Event.emsg_parse_failed] ∧
    aplic_init_from_device_tree (virt_with_dt two_node_fdt) zero_aplic [] =
      Outcome.ret (TEE_Result.TEE_SUCCESS, smode_node_aplic) [] := by
  refine ⟨?_, rfl, rfl, rfl⟩
  intro P fdt a tr hE hget hall
  unfold aplic_init_from_device_tree
  rw [hget]
  dsimp only
  rcases hn : fdt.aplic_nodes with _ | ⟨n, rest⟩
  · have h0 : P.FDT_ERR_NOTFOUND ≠ 0 := by omega
    simp only [spec_probe, probe_past_last_run, h0, if_false]
    exact ⟨fun d hd => by simp at hd, fun _ => ⟨_, rfl⟩⟩
  · rw [hn] at hall
    exact probe_loop_spec P fdt hE rest n a tr hall

theorem direct_add_run (P : Platform) (aplic : aplic_data) (s prio : Nat)
    (tc : Nat × Nat) (tr : List Event)
    (hd : P.irq_types_distinct) (hh : P.get_core_pos < 2 ^ 14)
    (h1 : 1 ≤ s) (hs : s ≤ aplic.num_source) (hn : aplic.num_source < 2 ^ 32)
    (ht : tc ∈ spec_trigger_codes P) :
    direct.aplic_op_add P aplic s tc.1 prio tr =
      Outcome.ret ()
        (tr ++ [Event.write32 ((aplic.aplic_base + 0x1FDC) % 2 ^ 64) s,
                Event.write32 ((aplic.aplic_base + 0x0004 + (s - 1) * 4) % 2 ^ 64) tc.2,
                Event.write32 ((aplic.aplic_base + 0x3004 + (s - 1) * 4) % 2 ^ 64)
                  (P.get_core_pos <<< 18 ||| prio % 256)]) := by
  have h32 : s < 2 ^ 32 := by omega
  have hs0 : ¬ (s = 0 ∨ s > aplic.num_source) := by omega
  have hu : u32 s = s := u32_of_lt h32
  have haddr := sourcecfg_addr_eq aplic h1 h32
  have hta := target_addr_eq aplic h1 h32
  rw [hu] at hta
  have hword : u32 (u32 ((u32 (u64 P.get_core_pos) &&& APLIC_TARGET_HART_IDX_MASK) <<<
        APLIC_TARGET_HART_IDX_SHIFT) |||
      u32 ((prio &&& APLIC_TARGET_IPRIO_MASK) <<< APLIC_TARGET_IPRIO_SHIFT)) =
      P.get_core_pos <<< 18 ||| prio % 256 := by
    rw [hart_field _ hh, iprio_field]
    exact low_field_or _ _ (by omega) hh
  simp only [direct.aplic_op_add, direct.aplic_set_target, aplic_disable_interrupt, bind_run,
    hs0, if_false, pure_run, io_write32_run, hu, set_source_mode_run P aplic s tc _ hd ht,
    TEE_Result.failed, Bool.false_eq_true, haddr, hta, hword]
  simp [u64, APLIC_CLRIENUM]

theorem direct_init_per_hart_run (P : Platform) (aplic : aplic_data) (tr : List Event) :
    direct.aplic_init_per_hart P aplic tr =
      Outcome.ret ()
        (tr ++ [Event.write32
                  ((aplic.aplic_base + 0x4000 + P.get_core_pos * 32 + 0x00) % 2 ^ 64) 1,
                Event.write32
                  ((aplic.aplic_base + 0x4000 + P.get_core_pos * 32 + 0x08) % 2 ^ 64) 0]) := by
  have h0 : u64 (direct.aplic_get_idc_base P aplic + APLIC_IDC_IDELIVERY) =
      (aplic.aplic_base + 0x4000 + P.get_core_pos * 32 + 0x00) % 2 ^ 64 := by
    simp only [direct.aplic_get_idc_base, u64, APLIC_IDC_BASE, APLIC_IDC_SIZE,
      APLIC_IDC_IDELIVERY]
    omega
  have h8 : u64 (direct.aplic_get_idc_base P aplic + APLIC_IDC_ITHRESHOLD) =
      (aplic.aplic_base + 0x4000 + P.get_core_pos * 32 + 0x08) % 2 ^ 64 := by
    simp only [direct.aplic_get_idc_base, u64, APLIC_IDC_BASE, APLIC_IDC_SIZE,
      APLIC_IDC_ITHRESHOLD]
    omega
  simp only [direct.aplic_init_per_hart, bind_run, io_write32_run, h0, h8]
  simp [u32, APLIC_ENABLE_IDELIVERY, APLIC_ENABLE_ITHRESHOLD]

/-- C21 (as stated, refuted): with `num_source` = 1024 = `APLIC_MAX_SOURCE` and base
0xd000000, `add(1024, level-high, 1)` on hart 0 writes `target[1024]` at 0xd004000, the
very address at which `aplic_init_per_hart` on hart 0 writes idelivery. Also, addresses
being 64-bit, the hart position 2^59 - 1 puts idelivery at 0xd003fe0, which is
`target[1016]`. -/
theorem target_meets_idc_counterexample :
    mmio_writes (direct.aplic_op_add virt max_source_aplic 1024 4 1 []).trace =
      [(0xd001fdc, 1024), (0xd001000, 6), (0xd004000, 1)] ∧
    mmio_writes (direct.aplic_init_per_hart virt max_source_aplic []).trace =
      [(0xd004000, 1), (0xd004008, 0)] ∧
    max_source_aplic.aplic_base + 0x3004 + (1024 - 1) * 4 =
      max_source_aplic.aplic_base + 0x4000 + 0 * 32 + 0x00 ∧
    ((mmio_writes (direct.aplic_op_add (virt_hart (2 ^ 59 - 1)) aplic_1023 1016 4 1
        []).trace).map Prod.fst = [0xd001fdc, 0xd000fe0, 0xd003fe0] ∧
     (mmio_writes (direct.aplic_init_per_hart (virt_hart (2 ^ 59 - 1)) aplic_1023
        []).trace).map Prod.fst = [0xd003fe0, 0xd003fe8]) := by
  refine ⟨rfl, rfl, rfl, rfl, rfl⟩

/-- C21 (amended): in direct mode, for every source `1 ≤ s ≤ num_source ≤ 1023`, a
trigger type of the enumeration and every hart position below `APLIC_MAX_IDC` = 2^14,
the address of `target[s]` written by `add`, `aplic_base + 0x3004 + (s-1)*4`, differs
from both addresses written by `aplic_init_per_hart`, `aplic_base + 0x4000 + h*32 + 0x00`
and `+ 0x08`: the target array ends strictly below the IDC block. -/
theorem target_below_idc (P : Platform) (aplic : aplic_data) (s prio : Nat)
    (tc : Nat × Nat)
    (hd : P.irq_types_distinct) (hh : P.get_core_pos < APLIC_MAX_IDC)
    (h1 : 1 ≤ s) (hs : s ≤ aplic.num_source) (hmax : aplic.num_source ≤ 1023)
    (ht : tc ∈ spec_trigger_codes P) :
    ((aplic.aplic_base + 0x3004 + (s - 1) * 4) % 2 ^ 64, P.get_core_pos <<< 18 ||| prio % 256)
      ∈ mmio_writes (direct.aplic_op_add P aplic s tc.1 prio []).trace ∧
    (mmio_writes (direct.aplic_init_per_hart P aplic []).trace).map Prod.fst =
      [(aplic.aplic_base + 0x4000 + P.get_core_pos * 32 + 0x00) % 2 ^ 64,
       (aplic.aplic_base + 0x4000 + P.get_core_pos * 32 + 0x08) % 2 ^ 64] ∧
    (∀ a, a ∈ (mmio_writes (direct.aplic_init_per_hart P aplic []).trace).map Prod.fst →
      a ≠ (aplic.aplic_base + 0x3004 + (s - 1) * 4) % 2 ^ 64) ∧
    aplic.aplic_base + 0x3004 + (s - 1) * 4 <
      aplic.aplic_base + 0x4000 + P.get_core_pos * 32 := by
  have hh' : P.get_core_pos < 2 ^ 14 := by simpa [APLIC_MAX_IDC] using hh
  have hadd := direct_add_run P aplic s prio tc [] hd hh' h1 hs (by omega) ht
  have hinit := direct_init_per_hart_run P aplic []
  rw [hadd, hinit]
  refine ⟨?_, ?_, ?_, by omega⟩
  · simp [Outcome.trace, mmio_writes]
  · simp [Outcome.trace, mmio_writes]
  · intro a ha
    simp only [Outcome.trace, List.nil_append, mmio_writes, List.map_cons, List.map_nil,
      List.mem_cons, List.mem_singleton, List.not_mem_nil, or_false] at ha
    rcases ha with ha | ha <;> subst ha <;> omega

theorem target_below_idc_witness :
    ((0xd000000 + 0x3004 + (1023 - 1) * 4) % 2 ^ 64, 3 <<< 18 ||| 1 % 256)
      ∈ mmio_writes (direct.aplic_op_add (virt_hart 3) aplic_1023 1023 4 1 []).trace ∧
    (mmio_writes (direct.aplic_init_per_hart (virt_hart 3) aplic_1023 []).trace).map Prod.fst =
      [(0xd000000 + 0x4000 + 3 * 32 + 0x00) % 2 ^ 64,
       (0xd000000 + 0x4000 + 3 * 32 + 0x08) % 2 ^ 64] ∧
    (∀ a, a ∈ (mmio_writes (direct.aplic_init_per_hart (virt_hart 3) aplic_1023
        []).trace).map Prod.fst →
      a ≠ (0xd000000 + 0x3004 + (1023 - 1) * 4) % 2 ^ 64) ∧
    0xd000000 + 0x3004 + (1023 - 1) * 4 < 0xd000000 + 0x4000 + 3 * 32 :=
  target_below_idc (virt_hart 3) aplic_1023 1023 1 (4, 6) (by decide) (by decide)
    (by decide) (by decide) (by decide) (by decide)

/-- C22: with device-tree probing enabled, `aplic_init` discards the result of
`aplic_init_from_device_tree`: whenever the probe returns an error, `aplic_init` still
returns, having written domaincfg at the base the failed probe left in the descriptor
(and, in direct mode, idelivery and ithreshold of the calling hart, followed by
`interrupt_main_init`). Without a DTB the probe returns item-not-found and leaves base 0:
the direct `aplic_init` then writes 0x100 to address 0, 1 to 0x4000 and 0 to 0x4008 and
installs the chip; the MSI `aplic_init` writes 0x104 to address 0. -/
theorem init_continues_after_failed_probe :
    (∀ (b : Backend) (P : Platform) (a : aplic_data) (pa : Nat) (tr : List Event)
       (res : TEE_Result) (d0 : aplic_data) (tr0 : List Event),
      P.CFG_DT = true →
      aplic_init_from_device_tree P a tr = Outcome.ret (res, d0) tr0 →
      res.failed = true →
      ∃ d tr1, b.aplic_init P a pa tr = Outcome.ret d tr1 ∧
        mmio_writes tr1 = mmio_writes tr ++
          (match b with
           | Backend.direct =>
             [((d0.aplic_base + 0x0000) % 2 ^ 64, 0x100),
              ((d0.aplic_base + 0x4000 + P.get_core_pos * 32 + 0x00) % 2 ^ 64, 1),
              ((d0.aplic_base + 0x4000 + P.get_core_pos * 32 + 0x08) % 2 ^ 64, 0)]
           | Backend.msi => [((d0.aplic_base + 0x0000) % 2 ^ 64, 0x104)]) ∧
        (b = Backend.direct → Event.interrupt_main_init ∈ tr1)) ∧
    aplic_init_from_device_tree virt_no_dtb zero_aplic [] =
      Outcome.ret (TEE_Result.TEE_ERROR_ITEM_NOT_FOUND, zero_aplic) [Event.emsg_no_dtb] ∧
    direct.aplic_init virt_no_dtb zero_aplic 0xd000000 [] =
      Outcome.ret { zero_aplic with chip := { ops := some OpsRef.direct_aplic_ops } }
        [Event.emsg_no_dtb, Event.write32 0 0x100, Event.write32 0x4000 1,
         Event.write32 0x4008 0, Event.interrupt_main_init] ∧
    msi.aplic_init virt_no_dtb zero_aplic 0xd000000 [] =
      Outcome.ret { zero_aplic with chip := { ops := some OpsRef.msi_aplic_ops } }
        [Event.emsg_no_dtb, Event.write32 0 0x104] := by
  refine ⟨?_, rfl, rfl, rfl⟩
  intro b P a pa tr res d0 tr0 hdt h _
  obtain ⟨r, trq, hr, hw⟩ := init_from_device_tree_quiet P a tr
  rw [h] at hr
  simp only [Outcome.ret.injEq] at hr
  obtain ⟨_, htr⟩ := hr
  subst htr
  cases b
  · simp only [Backend.aplic_init, direct.aplic_init, bind_run, hdt, if_true, h, pure_run,
      io_write32_run, direct_init_per_hart_run, emit]
    refine ⟨_, _, rfl, ?_, ?_⟩
    · simp [mmio_writes_append, mmio_writes, hw, u64, u32, APLIC_DOMAINCFG,
        APLIC_DOMAINCFG_IE]
    · intro _; simp
  · simp only [Backend.aplic_init, msi.aplic_init, bind_run, hdt, if_true, h, pure_run,
      io_write32_run]
    refine ⟨_, _, rfl, ?_, ?_⟩
    · simp [mmio_writes_append, mmio_writes, hw, u64, u32, APLIC_DOMAINCFG,
        APLIC_DOMAINCFG_IE, APLIC_DOMAINCFG_DM]
    · intro hb; cases hb

/-- C3: in direct mode with 32 sources, when `claimi` of the calling hart's IDC block
holds `(5 << 16) | 1` (identifier 5, in range) and the other registers read 0,
`aplic_it_handle` does not invoke `interrupt_call_handlers` with source 5: it reads
`aplic_base + 0x1C`, gets 0, and invokes the handlers once with source 0, on hart 0
(`claimi` at 0xd00401c) and on hart 1 (`claimi` at 0xd00403c) alike. In general, whatever
word `claimi` of the hart's IDC block holds, when the register at `aplic_base + 0x1C`
reads 0 the handlers are invoked with source 0. -/
theorem it_handle_misses_claimi :
    u64 (direct.aplic_get_idc_base (virt_claimi 0 (5 <<< 16 ||| 1)) virt_aplic +
      APLIC_IDC_CLAIMI) = 0xd00401c ∧
    (virt_claimi 0 (5 <<< 16 ||| 1)).bus [] 0xd00401c = 5 <<< 16 ||| 1 ∧
    ((5 <<< 16 ||| 1) >>> 16) &&& 0x3FF = 5 ∧
    direct.aplic_it_handle (virt_claimi 0 (5 <<< 16 ||| 1)) virt_aplic [] =
      Outcome.ret () [Event.read32 0xd00001c 0, Event.interrupt_call_handlers 0] ∧
    handler_calls
      (direct.aplic_it_handle (virt_claimi 0 (5 <<< 16 ||| 1)) virt_aplic []).trace = [0] ∧
    (virt_claimi 1 (5 <<< 16 ||| 1)).bus [] 0xd00403c = 5 <<< 16 ||| 1 ∧
    direct.aplic_it_handle (virt_claimi 1 (5 <<< 16 ||| 1)) virt_aplic [] =
      Outcome.ret () [Event.read32 0xd00001c 0, Event.interrupt_call_handlers 0] ∧
    (∀ (P : Platform) (aplic : aplic_data) (tr : List Event) (w : Nat),
      P.bus tr (u64 (direct.aplic_get_idc_base P aplic + APLIC_IDC_CLAIMI)) = w →
      P.bus tr (u64 (aplic.aplic_base + APLIC_IDC_CLAIMI)) = 0 →
      handler_calls (direct.aplic_it_handle P aplic tr).trace = handler_calls tr ++ [0]) := by
  refine ⟨rfl, rfl, by decide, rfl, rfl, rfl, rfl, ?_⟩
  intro P aplic tr w _ h0
  rw [handler_calls_it_handle, h0]
  simp [u32]

end Aplic
